import Mathlib

/-!
# NetPilot — shallow embedding and verification

A shallow embedding of the core of `netpilot.py` (NetPilot 0.0.4):

* the Configuration Synchronization Engine (`SystemConfigManager`:
  `read_config_file`, `write_config_file`, `add_loader_conf_entries`,
  `add_rc_conf_entries`, `backup_file`, `generate_loader_conf_entries`),
* the Driver Resolution Engine (`EnhancedDriverDatabase`:
  `match_device`, `get_specific_firmware_package`, the rule table and
  blacklist),
* the Dependency/Load Orchestrator (`AdvancedNetworkManager`:
  `_load_module_with_dependencies`, `_load_single_module`).

File contents are modelled as lists of lines (`List Char` per line),
matching Python's `readlines`/`writelines` view of a text file whose
keys and values contain no newline characters.  External effects
(filesystem copy/rename success, `kldstat`/`kldload` results) are
modelled by explicit oracle records, and side effects are recorded as
explicit event traces so that ordering and absence of effects are
provable.
-/

namespace NetPilot

/-- One line of a text file, as a list of characters (no trailing newline). -/
abbrev Line := List Char

/-- Characters stripped by Python's `str.strip()` (ASCII whitespace). -/
def isSpaceChar (c : Char) : Bool :=
  c = ' ' || c = '\t' || c = '\n' || c = '\r' || c = '\x0b' || c = '\x0c'

/-- Strip characters satisfying `p` from both ends (Python `str.strip(chars)`). -/
def stripChars (p : Char → Bool) (l : List Char) : List Char :=
  ((l.dropWhile p).reverse.dropWhile p).reverse

/-- Python `str.strip()`. -/
def pyStrip (l : Line) : Line := stripChars isSpaceChar l

/-- Python `str.strip('"')`. -/
def stripQuotes (l : Line) : Line := stripChars (fun c => c = '"') l

/-- Python `str.split('=', 1)`: split at the first `'='`.
If no `'='` occurs the whole input is the first component. -/
def splitEq1 : Line → Line × Line
  | [] => ([], [])
  | c :: rest =>
    if c = '=' then ([], rest)
    else
      let p := splitEq1 rest
      (c :: p.1, p.2)

/-- Shorthand: the characters of a string literal. -/
def sl (s : String) : Line := s.toList

/-- The key/value pair parsed from one configuration line, following
`SystemConfigManager.read_config_file`: strip the line, skip empty and
`#`-comment lines and lines without `'='`, split at the first `'='`,
strip the key, strip the value and remove surrounding quotes. -/
def parsedKV (line : Line) : Option (Line × Line) :=
  if !(pyStrip line).isEmpty && (pyStrip line).head? != some '#' &&
      (pyStrip line).contains '=' then
    some (pyStrip (splitEq1 (pyStrip line)).1,
      stripQuotes (pyStrip (splitEq1 (pyStrip line)).2))
  else none

/-- The parsed key of a line, when the line parses. -/
def lineKey? (line : Line) : Option Line := (parsedKV line).map (·.1)

/-- The key → value mapping built by `read_config_file` (a Python dict,
observed only through lookups). -/
abbrev Config := Line → Option Line

def emptyConfig : Config := fun _ => none

def cfgSet (cfg : Config) (k v : Line) : Config :=
  fun k' => if k' = k then some v else cfg k'

/-- Process one line into the accumulated mapping. -/
def applyLine (cfg : Config) (line : Line) : Config :=
  match parsedKV line with
  | some kv => cfgSet cfg kv.1 kv.2
  | none => cfg

/-- `read_config_file` on the lines of an existing file. -/
def read_config_lines (lines : List Line) : Config :=
  lines.foldl applyLine emptyConfig

/-- `read_config_file` on a possibly missing file
(missing file = empty mapping, not an error). -/
def read_config_file (contents : Option (List Line)) : Config :=
  read_config_lines (contents.getD [])

/-- `SystemConfigEntry` (the `section` field is never used by the code). -/
structure SystemConfigEntry where
  file_path : Line := []
  key : Line
  value : Line
  comment : Option Line := none
deriving DecidableEq

/-- The rewritten form `key="value"` of a configuration line. -/
def mkEntryLine (k v : Line) : Line := k ++ '=' :: '"' :: v ++ ['"']

/-- How `write_config_file` treats one existing line: if it parses and its
key equals the key of some new entry (first match wins), replace it in
place with the `key="value"` form; otherwise pass it through unchanged. -/
def rewriteLine (newEntries : List SystemConfigEntry) (line : Line) : Line :=
  match lineKey? line with
  | some key =>
    match newEntries.find? (fun e => e.key = key) with
    | some e => mkEntryLine key e.value
    | none => line
  | none => line

/-- One step of `write_config_file`'s loop over existing lines,
accumulating the new lines and the set of processed keys. -/
def writeStep (newEntries : List SystemConfigEntry)
    (acc : List Line × List Line) (line : Line) : List Line × List Line :=
  match lineKey? line with
  | some key =>
    match newEntries.find? (fun e => e.key = key) with
    | some e => (acc.1 ++ [mkEntryLine key e.value], acc.2 ++ [key])
    | none => (acc.1 ++ [line], acc.2)
  | none => (acc.1 ++ [line], acc.2)

/-- The timestamped NetPilot marker comment (`stamp` is the formatted
current time, an external input).  In the file the marker is written as
`"\n# NetPilot Configuration - <stamp>\n"`, i.e. a blank line followed by
this comment line. -/
def netpilotMarker (stamp : Line) : Line :=
  sl "# NetPilot Configuration - " ++ stamp

/-- The lines appended for one entry whose key was not present: an
optional `# comment` line (skipped when the comment is absent or empty,
Python truthiness) followed by the `key="value"` line. -/
def entryBlock (e : SystemConfigEntry) : List Line :=
  (match e.comment with
   | some c => if c.isEmpty then [] else [sl "# " ++ c]
   | none => []) ++ [mkEntryLine e.key e.value]

/-- The new file content computed by `write_config_file`: rewrite the
existing lines in place, then append a NetPilot section for the entries
whose keys were not seen in the file. -/
def writeConfigLines (existing : List Line)
    (newEntries : List SystemConfigEntry) (stamp : Line) : List Line :=
  let bp := existing.foldl (writeStep newEntries) ([], [])
  let unprocessed := newEntries.filter (fun e => !bp.2.contains e.key)
  if unprocessed.isEmpty then bp.1
  else bp.1 ++ [[], netpilotMarker stamp] ++ unprocessed.flatMap entryBlock

/-- `ConfigurationChange`: one entry of the engine's in-memory journal. -/
structure ConfigurationChange where
  timestamp : Line
  file_path : Line
  action : Line
  key : Line
  old_value : Option Line
  new_value : Line
  backup_file : Option Line
deriving DecidableEq

/-- Observable side effects of one synchronization call, in the order
the code performs them. -/
inductive SyncEvent
  | backupCopy
  | readConfig
  | writeAttempt
  | renameOk
deriving DecidableEq

/-- Oracle for the external effects of one synchronization call:
whether `shutil.copy2` raises, whether the temp-file write and rename
succeed, the chosen backup path and the two timestamp strings. -/
structure SyncWorld where
  backupOk : Bool
  writeOk : Bool
  backupPath : Line
  stamp : Line
  ts : Line

/-- Result of one `add_*_conf_entries` call: the returned boolean, the
target file's content afterwards, the journal afterwards, and the trace
of side effects. -/
structure SyncOutcome where
  ok : Bool
  file : Option (List Line)
  journal : List ConfigurationChange
  events : List SyncEvent
deriving DecidableEq

/-- `SystemConfigManager.backup_file`: no file → no backup (`None`);
otherwise copy to the timestamped backup path, returning `None` when the
copy raises (failure is logged, not propagated). -/
def backup_file (w : SyncWorld) (contents : Option (List Line)) :
    Option Line × List SyncEvent :=
  match contents with
  | none => (none, [])
  | some _ => if w.backupOk then (some w.backupPath, [.backupCopy]) else (none, [])

/-- The `ConfigurationChange` recorded for one changing entry. -/
def mkChange (w : SyncWorld) (filePath : Line) (cfg : Config)
    (backup : Option Line) (e : SystemConfigEntry) : ConfigurationChange :=
  { timestamp := w.ts
    file_path := filePath
    action := if (cfg e.key).isSome then sl "modified" else sl "added"
    key := e.key
    old_value := cfg e.key
    new_value := e.value
    backup_file := backup }

/-- `SystemConfigManager.write_config_file`: re-read the existing lines,
compute the new content, write it to a temp file and atomically rename.
On any failure the call returns `False` and the target file keeps its
old content (the temp file never replaced it). -/
def write_config_file (w : SyncWorld) (contents : Option (List Line))
    (newEntries : List SystemConfigEntry) :
    Bool × Option (List Line) × List SyncEvent :=
  let newLines := writeConfigLines (contents.getD []) newEntries w.stamp
  if w.writeOk then (true, some newLines, [.writeAttempt, .renameOk])
  else (false, contents, [.writeAttempt])

/-- The filter in `add_loader_conf_entries` / `add_rc_conf_entries`: an
entry is kept exactly when its key is absent from the existing mapping
or present with a different value. -/
def changedEntries (cfg : Config) (entries : List SystemConfigEntry) :
    List SystemConfigEntry :=
  entries.filter (fun e => !(cfg e.key == some e.value))

/-- The shared body of `add_loader_conf_entries` and
`add_rc_conf_entries`: empty entry list → immediate success; otherwise
back up, read the existing mapping, keep the entries that change
something, record one `ConfigurationChange` per kept entry, and rewrite
the file when any entry changed. -/
def add_conf_entries (w : SyncWorld) (filePath : Line)
    (contents : Option (List Line)) (journal : List ConfigurationChange)
    (entries : List SystemConfigEntry) : SyncOutcome :=
  if entries.isEmpty then
    { ok := true, file := contents, journal := journal, events := [] }
  else
    let bk := backup_file w contents
    let cfg := read_config_file contents
    let newEntries := changedEntries cfg entries
    let journal' := journal ++ newEntries.map (mkChange w filePath cfg bk.1)
    if newEntries.isEmpty then
      { ok := true, file := contents, journal := journal'
        events := bk.2 ++ [.readConfig] }
    else
      let wr := write_config_file w contents newEntries
      { ok := wr.1, file := wr.2.1, journal := journal'
        events := bk.2 ++ [.readConfig] ++ wr.2.2 }

def loaderConfPath : Line := sl "/boot/loader.conf"

def rcConfPath : Line := sl "/etc/rc.conf"

/-- `SystemConfigManager.add_loader_conf_entries`. -/
def add_loader_conf_entries (w : SyncWorld) (contents : Option (List Line))
    (journal : List ConfigurationChange) (entries : List SystemConfigEntry) :
    SyncOutcome :=
  add_conf_entries w loaderConfPath contents journal entries

/-- `SystemConfigManager.add_rc_conf_entries`. -/
def add_rc_conf_entries (w : SyncWorld) (contents : Option (List Line))
    (journal : List ConfigurationChange) (entries : List SystemConfigEntry) :
    SyncOutcome :=
  add_conf_entries w rcConfPath contents journal entries

/-! ## Driver Resolution Engine -/

inductive DeviceType
  | ethernet
  | wifi
  | usb_ethernet
  | usb_wifi
  | unknown
deriving DecidableEq

/-- `NetworkDevice`, restricted to the fields the matcher and firmware
resolver read (`vendor_name`, `device_name`, `bus_info` and the other
discovery fields never influence matching).  `device_class` is optional
because USB discovery may leave it unset (`None`). -/
structure NetworkDevice where
  vendor : String
  device : String
  device_class : Option String := none
  is_usb : Bool := false
  device_type : DeviceType := .unknown
deriving DecidableEq

/-- `DriverRule`.  The `conflicts` and `min_freebsd_version` fields are
never set or read by the code and are omitted. -/
structure DriverRule where
  kld : String
  vendor : Option String := none
  device_ids : Option (List String) := none
  vendor_ids : Option (List String) := none
  device_class : Option String := none
  is_usb : Bool := false
  firmware : Option String := none
  description : Option String := none
  device_type : DeviceType := .unknown
  dependencies : List String := []
  load_order : Nat := 50
deriving DecidableEq

def USB_NETWORK_CLASS : String := "0x02"

/-- `EnhancedDriverDatabase._load_comprehensive_rules`, in declaration
order. -/
def comprehensive_rules : List DriverRule := [
  { kld := "if_igb", vendor := some "0x8086"
    device_ids := some ["0x10a7", "0x10a9", "0x10d6", "0x10e6", "0x10e7", "0x10e8",
                        "0x150a", "0x1518", "0x1521", "0x1522", "0x1523", "0x1524"]
    description := some "Intel 82575/82576/82580/I350/I354 Gigabit Ethernet"
    device_type := .ethernet, load_order := 10 },
  { kld := "if_em", vendor := some "0x8086"
    device_ids := some ["0x10d3", "0x1502", "0x1533", "0x150c", "0x10de", "0x10df",
                        "0x10ef", "0x1049", "0x104a", "0x104b", "0x104c", "0x104d"]
    description := some "Intel 82571/82572/82573/82574/82583 Ethernet"
    device_type := .ethernet, load_order := 20 },
  { kld := "if_ix", vendor := some "0x8086"
    device_ids := some ["0x10fb", "0x10f8", "0x154d", "0x1528", "0x154a", "0x154f",
                        "0x1557", "0x1558", "0x1560", "0x1563", "0x15aa", "0x15ab"]
    description := some "Intel 82598/82599/X540/X550 10 Gigabit Ethernet"
    device_type := .ethernet, load_order := 15 },
  { kld := "if_em", vendor := some "0x8086"
    device_ids := some ["0x156f", "0x1570", "0x15b7", "0x15b8", "0x15b9", "0x15bb",
                        "0x15bc", "0x15bd", "0x15be", "0x0d4e", "0x0d4f", "0x0d4c"]
    description := some "Intel I219/I225/I226 Gigabit Ethernet"
    device_type := .ethernet, load_order := 5 },
  { kld := "if_re", vendor := some "0x10ec"
    device_ids := some ["0x8168", "0x8169", "0x8136", "0x8167", "0x8161", "0x8162",
                        "0x8125", "0x3000", "0x8129", "0x8139"]
    description := some "Realtek RTL8139/8169/8168/8111/8125 Ethernet"
    device_type := .ethernet, load_order := 25 },
  { kld := "if_bge", vendor := some "0x14e4"
    description := some "Broadcom BCM57xx Gigabit Ethernet"
    device_type := .ethernet, load_order := 30 },
  { kld := "if_alc", vendor := some "0x1969"
    description := some "Atheros/Qualcomm AR813x/AR815x/AR816x/AR817x Ethernet"
    device_type := .ethernet, load_order := 35 },
  { kld := "if_axge", vendor_ids := some ["0x0b95"], is_usb := true
    description := some "ASIX AX88179/AX88178A USB 3.0 Gigabit Ethernet"
    device_type := .usb_ethernet, load_order := 40 },
  { kld := "if_axe", vendor_ids := some ["0x0b95", "0x077b", "0x2001"], is_usb := true
    description := some "ASIX AX88x72 USB 2.0 Ethernet"
    device_type := .usb_ethernet, load_order := 45 },
  { kld := "if_ure", vendor_ids := some ["0x0bda", "0x0411"], is_usb := true
    description := some "Realtek RTL8152/RTL8153 USB Ethernet"
    device_type := .usb_ethernet, load_order := 50 },
  { kld := "if_cdce", device_class := some USB_NETWORK_CLASS, is_usb := true
    description := some "USB CDC Ethernet"
    device_type := .usb_ethernet, load_order := 55 },
  { kld := "if_iwlwifi", vendor := some "0x8086"
    device_ids := some ["0x2723", "0x2725", "0x271b", "0x271c", "0x2720", "0x30dc",
                        "0x31dc", "0x9df0", "0x02f0", "0x06f0", "0x34f0", "0x43f0",
                        "0xa0f0", "0x2526", "0x51f0", "0x51f1", "0x54f0", "0x7af0"]
    firmware := some "wifi-firmware-iwlwifi-kmod"
    description := some "Intel WiFi 6E/6/AC (AX200/AX201/AX210/AC9560/AC9260/BE200)"
    device_type := .wifi, load_order := 60
    dependencies := ["linuxkpi", "lindebugfs"] },
  { kld := "if_iwlwifi", vendor := some "0x8086"
    device_ids := some ["0x2725", "0x51f0", "0x51f1", "0x54f0", "0x7af0"]
    firmware := some "wifi-firmware-iwlwifi-kmod-ax210"
    description := some "Intel WiFi 6E AX210 series"
    device_type := .wifi, load_order := 58
    dependencies := ["linuxkpi", "lindebugfs"] },
  { kld := "if_iwlwifi", vendor := some "0x8086"
    device_ids := some ["0x2723", "0x271b", "0x271c", "0x30dc", "0x31dc", "0x43f0", "0xa0f0"]
    firmware := some "wifi-firmware-iwlwifi-kmod-22000"
    description := some "Intel WiFi 22000 series (AX200/AX201)"
    device_type := .wifi, load_order := 59
    dependencies := ["linuxkpi", "lindebugfs"] },
  { kld := "if_iwlwifi", vendor := some "0x8086"
    device_ids := some ["0x9df0", "0x02f0", "0x06f0", "0x34f0"]
    firmware := some "wifi-firmware-iwlwifi-kmod-9000"
    description := some "Intel WiFi 9000 series (9560/9260)"
    device_type := .wifi, load_order := 61
    dependencies := ["linuxkpi", "lindebugfs"] },
  { kld := "if_iwm", vendor := some "0x8086"
    device_ids := some ["0x095a", "0x095b", "0x24f3", "0x24f4", "0x24f5", "0x24f6"]
    firmware := some "wifi-firmware-iwlwifi-kmod-7000"
    description := some "Intel WiFi 7000 series (7260/7265)"
    device_type := .wifi, load_order := 65 },
  { kld := "if_iwm", vendor := some "0x8086"
    device_ids := some ["0x24fd", "0x24fb", "0x3165", "0x3166"]
    firmware := some "wifi-firmware-iwlwifi-kmod-8000"
    description := some "Intel WiFi 8000 series (8260/8265/3165)"
    device_type := .wifi, load_order := 66 },
  { kld := "if_ath12k", vendor := some "0x17cb"
    device_ids := some ["0x1107", "0x1109"]
    firmware := some "wifi-firmware-ath12k-kmod"
    description := some "Qualcomm Atheros WiFi 6E/7 (WCN7850)"
    device_type := .wifi, load_order := 68
    dependencies := ["linuxkpi"] },
  { kld := "if_ath11k", vendor := some "0x17cb"
    device_ids := some ["0x1101", "0x1103", "0x1104"]
    firmware := some "wifi-firmware-ath11k-kmod"
    description := some "Qualcomm Atheros WiFi 6E (QCA6390/QCA6490)"
    device_type := .wifi, load_order := 70
    dependencies := ["linuxkpi"] },
  { kld := "if_ath10k", vendor := some "0x168c"
    device_ids := some ["0x003c", "0x0041", "0x003e", "0x0040", "0x0046", "0x0056"]
    firmware := some "wifi-firmware-ath10k-kmod"
    description := some "Qualcomm Atheros 802.11ac (QCA988x/QCA99x0/QCA6174/QCA9377)"
    device_type := .wifi, load_order := 75 },
  { kld := "if_rtw89", vendor := some "0x10ec"
    device_ids := some ["0x8852", "0x8851", "0xc852", "0xc851"]
    firmware := some "wifi-firmware-rtw89-kmod"
    description := some "Realtek WiFi 6 (RTL8852AE/RTL8852BE/RTL8851B)"
    device_type := .wifi, load_order := 85
    dependencies := ["linuxkpi"] },
  { kld := "if_rtw88", vendor := some "0x10ec"
    device_ids := some ["0x8822", "0x8821", "0xb822", "0xc822", "0x8723", "0xb723"]
    firmware := some "wifi-firmware-rtw88-kmod"
    description := some "Realtek WiFi 5 (RTL8822BE/RTL8822CE/RTL8723DE)"
    device_type := .wifi, load_order := 90
    dependencies := ["linuxkpi"] },
  { kld := "if_mt76", vendor := some "0x14c3"
    device_ids := some ["0x7915", "0x7906", "0x7922", "0x7996"]
    firmware := some "wifi-firmware-mt76-kmod"
    description := some "MediaTek MT76xx WiFi 6/6E"
    device_type := .wifi, load_order := 95
    dependencies := ["linuxkpi"] },
  { kld := "if_rtwn", vendor := some "0x10ec"
    device_ids := some ["0x8176", "0x8178", "0x8188", "0x8192"]
    description := some "Realtek 802.11n (RTL8188/RTL8192 series)"
    device_type := .wifi, load_order := 95 },
  { kld := "if_bwi", vendor := some "0x14e4"
    device_ids := some ["0x4311", "0x4312", "0x4315", "0x4318", "0x4319"]
    description := some "Broadcom BCM43xx 802.11bg"
    device_type := .wifi, load_order := 100 },
  { kld := "if_ath", vendor := some "0x168c"
    description := some "Atheros 802.11abgn (AR5xxx/AR9xxx series)"
    device_type := .wifi, load_order := 105 },
  { kld := "if_urtwn", vendor_ids := some ["0x0bda", "0x2019", "0x20f4", "0x2001", "0x050d"]
    is_usb := true, firmware := some "wifi-firmware-rtw88-kmod"
    description := some "Realtek RTL8188/RTL8192/RTL8723 USB WiFi"
    device_type := .usb_wifi, load_order := 110 },
  { kld := "if_mt7601u", vendor_ids := some ["0x148f", "0x0e8d"]
    is_usb := true, firmware := some "wifi-firmware-mt7601u-kmod"
    description := some "MediaTek MT7601U USB WiFi"
    device_type := .usb_wifi, load_order := 115 },
  { kld := "if_run", vendor_ids := some ["0x148f", "0x0df6", "0x0789", "0x083a", "0x2019"]
    is_usb := true
    description := some "Ralink/MediaTek RT2870/RT3070/RT5370 USB WiFi (legacy)"
    device_type := .usb_wifi, load_order := 120 },
  { kld := "if_rum", vendor_ids := some ["0x148f", "0x0b05", "0x050d", "0x0769", "0x0411"]
    is_usb := true
    description := some "Ralink RT2501/RT2601 USB WiFi (legacy)"
    device_type := .usb_wifi, load_order := 125 },
  { kld := "if_ural", vendor_ids := some ["0x148f", "0x0b05", "0x050d", "0x13b1", "0x0411"]
    is_usb := true
    description := some "Ralink RT2500 USB WiFi (legacy)"
    device_type := .usb_wifi, load_order := 130 }
]

/-- `EnhancedDriverDatabase._load_blacklist`. -/
def driver_blacklist : List String := ["if_iwn"]

/-- The predicate in `match_device`'s loop: blacklist exclusion, bus-kind
equality, then the vendor / vendor-set / device-set / device-class checks.
A predicate that is unset on a rule (`None`, or empty by Python
truthiness) always passes. -/
def ruleMatches (blacklist : List String) (d : NetworkDevice)
    (r : DriverRule) : Bool :=
  !blacklist.contains r.kld &&
  r.is_usb == d.is_usb &&
  (match r.vendor with
   | some v => v.isEmpty || d.vendor == v
   | none => true) &&
  (match r.vendor_ids with
   | some vs => vs.isEmpty || vs.contains d.vendor
   | none => true) &&
  (match r.device_ids with
   | some ds => ds.isEmpty || ds.contains d.device
   | none => true) &&
  (match r.device_class with
   | some dc => dc.isEmpty || d.device_class == some dc
   | none => true)

/-- The rules that pass every predicate, in declaration order
(`matching_rules` in `match_device`). -/
def matchingRules (rules : List DriverRule) (blacklist : List String)
    (d : NetworkDevice) : List DriverRule :=
  rules.filter (ruleMatches blacklist d)

/-- Python's `min(matching_rules, key=lambda r: r.load_order)`: the first
element attaining the minimal `load_order`. -/
def minByLoadOrder (r : DriverRule) (rs : List DriverRule) : DriverRule :=
  rs.foldl (fun best r' => if r'.load_order < best.load_order then r' else best) r

/-- `EnhancedDriverDatabase.match_device` over an arbitrary rule table. -/
def match_device (rules : List DriverRule) (blacklist : List String)
    (d : NetworkDevice) : Option DriverRule :=
  match matchingRules rules blacklist d with
  | [] => none
  | r :: rs => some (minByLoadOrder r rs)

/-- `match_device` on the database the program constructs. -/
def matchDeviceDb (d : NetworkDevice) : Option DriverRule :=
  match_device comprehensive_rules driver_blacklist d

/-- Python's `needle in hay` on strings. -/
def strContainsSub (hay needle : String) : Bool :=
  hay.toList.tails.any (fun t => needle.toList.isPrefixOf t)

/-- `dict.get` on an association table. -/
def lookupMap (m : List (String × String)) (k : String) : Option String :=
  (m.find? (fun p => p.1 == k)).map (·.2)

/-- Intel WiFi device-specific firmware overrides. -/
def intelFirmwareMap : List (String × String) := [
  ("0x2725", "wifi-firmware-iwlwifi-kmod-ax210"),
  ("0x51f0", "wifi-firmware-iwlwifi-kmod-ax210"),
  ("0x51f1", "wifi-firmware-iwlwifi-kmod-ax210"),
  ("0x54f0", "wifi-firmware-iwlwifi-kmod-ax210"),
  ("0x7af0", "wifi-firmware-iwlwifi-kmod-ax210"),
  ("0x2723", "wifi-firmware-iwlwifi-kmod-22000"),
  ("0x271b", "wifi-firmware-iwlwifi-kmod-22000"),
  ("0x271c", "wifi-firmware-iwlwifi-kmod-22000"),
  ("0x30dc", "wifi-firmware-iwlwifi-kmod-22000"),
  ("0x31dc", "wifi-firmware-iwlwifi-kmod-22000"),
  ("0x43f0", "wifi-firmware-iwlwifi-kmod-22000"),
  ("0xa0f0", "wifi-firmware-iwlwifi-kmod-22000"),
  ("0x9df0", "wifi-firmware-iwlwifi-kmod-9000"),
  ("0x02f0", "wifi-firmware-iwlwifi-kmod-9000"),
  ("0x06f0", "wifi-firmware-iwlwifi-kmod-9000"),
  ("0x34f0", "wifi-firmware-iwlwifi-kmod-9000"),
  ("0x24fd", "wifi-firmware-iwlwifi-kmod-8000"),
  ("0x24fb", "wifi-firmware-iwlwifi-kmod-8000"),
  ("0x3165", "wifi-firmware-iwlwifi-kmod-8000"),
  ("0x3166", "wifi-firmware-iwlwifi-kmod-8000"),
  ("0x095a", "wifi-firmware-iwlwifi-kmod-7000"),
  ("0x095b", "wifi-firmware-iwlwifi-kmod-7000"),
  ("0x24f3", "wifi-firmware-iwlwifi-kmod-7000"),
  ("0x24f4", "wifi-firmware-iwlwifi-kmod-7000"),
  ("0x24f5", "wifi-firmware-iwlwifi-kmod-7000"),
  ("0x24f6", "wifi-firmware-iwlwifi-kmod-7000")
]

/-- Qualcomm Atheros ath10k device-specific firmware overrides. -/
def ath10kFirmwareMap : List (String × String) := [
  ("0x003c", "wifi-firmware-ath10k-kmod-qca988x_hw20"),
  ("0x0041", "wifi-firmware-ath10k-kmod-qca6174_hw30"),
  ("0x003e", "wifi-firmware-ath10k-kmod-qca6174_hw21"),
  ("0x0040", "wifi-firmware-ath10k-kmod-qca99x0_hw20"),
  ("0x0046", "wifi-firmware-ath10k-kmod-qca9377_hw10"),
  ("0x0056", "wifi-firmware-ath10k-kmod-qca9888_hw20")
]

/-- Qualcomm Atheros ath11k device-specific firmware overrides. -/
def ath11kFirmwareMap : List (String × String) := [
  ("0x1101", "wifi-firmware-ath11k-kmod-qca6390_hw20"),
  ("0x1103", "wifi-firmware-ath11k-kmod-wcn6855_hw20"),
  ("0x1104", "wifi-firmware-ath11k-kmod-qcn9074_hw10")
]

/-- Realtek rtw88 device-specific firmware overrides. -/
def rtw88FirmwareMap : List (String × String) := [
  ("0x8822", "wifi-firmware-rtw88-kmod-rtw8822b"),
  ("0x8821", "wifi-firmware-rtw88-kmod-rtw8821c"),
  ("0xb822", "wifi-firmware-rtw88-kmod-rtw8822b"),
  ("0xc822", "wifi-firmware-rtw88-kmod-rtw8822c"),
  ("0x8723", "wifi-firmware-rtw88-kmod-rtw8723d"),
  ("0xb723", "wifi-firmware-rtw88-kmod-rtw8703b")
]

/-- Realtek rtw89 device-specific firmware overrides. -/
def rtw89FirmwareMap : List (String × String) := [
  ("0x8852", "wifi-firmware-rtw89-kmod-rtw8852a"),
  ("0x8851", "wifi-firmware-rtw89-kmod-rtw8851b"),
  ("0xc852", "wifi-firmware-rtw89-kmod-rtw8852c"),
  ("0xc851", "wifi-firmware-rtw89-kmod-rtw8852b")
]

/-- One vendor-family branch of `get_specific_firmware_package`: when the
branch's guard holds, look the device id up in the family's override
table (`if specific_fw: return specific_fw`); a miss falls through. -/
def firmwareBranch (applicable : Bool) (m : List (String × String))
    (dev : String) : Option String :=
  if applicable then lookupMap m dev else none

/-- The device-specific override chosen by the sequence of family
branches in `get_specific_firmware_package`, in source order. -/
def firmwareOverride (vendor : Option String) (fw : String)
    (dev : String) : Option String :=
  (firmwareBranch (vendor == some "0x8086" && strContainsSub fw "iwlwifi")
     intelFirmwareMap dev).orElse fun _ =>
  (firmwareBranch (vendor == some "0x168c" && strContainsSub fw "ath10k")
     ath10kFirmwareMap dev).orElse fun _ =>
  (firmwareBranch (vendor == some "0x17cb" && strContainsSub fw "ath11k")
     ath11kFirmwareMap dev).orElse fun _ =>
  (firmwareBranch (vendor == some "0x10ec" && strContainsSub fw "rtw88")
     rtw88FirmwareMap dev).orElse fun _ =>
  (firmwareBranch (vendor == some "0x10ec" && strContainsSub fw "rtw89")
     rtw89FirmwareMap dev)

/-- `EnhancedDriverDatabase.get_specific_firmware_package`: no declared
firmware (`None` or empty, Python truthiness) → `None`; otherwise the
first family override that hits, else the rule's generic firmware. -/
def get_specific_firmware_package (d : NetworkDevice) (rule : DriverRule) :
    Option String :=
  match rule.firmware with
  | none => none
  | some fw =>
    if fw.isEmpty then none
    else
      match firmwareOverride rule.vendor fw d.device with
      | some specific => some specific
      | none => some fw

/-- `EnhancedDriverDatabase.get_dependencies` (copies the rule's
dependency list, in order). -/
def get_dependencies (rule : DriverRule) : List String :=
  rule.dependencies.foldl (fun acc dep => acc ++ [dep]) []

/-- The per-run load state of `AdvancedNetworkManager`
(`loaded_modules` / `failed_modules`, observed only through
membership). -/
structure LoadState where
  loaded : List String
  failed : List String
deriving DecidableEq

/-- Oracle for the module-loader collaborator within one run:
`isLoaded m` is the (cached) result of `kldstat -n m`, `loadOk m` is
whether `kldload m` returns zero. -/
structure LoadWorld where
  isLoaded : String → Bool
  loadOk : String → Bool

/-- `AdvancedNetworkManager._load_single_module`.  The returned trace
lists the modules for which `kldload` was actually invoked. -/
def load_single_module (w : LoadWorld) (st : LoadState) (m : String) :
    Bool × LoadState × List String :=
  if w.isLoaded m then (true, st, [])
  else if w.loadOk m then (true, { st with loaded := st.loaded.insert m }, [m])
  else (false, { st with failed := st.failed.insert m }, [m])

/-- `AdvancedNetworkManager._load_module_with_dependencies`: skip
immediately when the rule's module is recorded as failed; otherwise load
each dependency that is not already loaded (a dependency failure is
logged, not propagated), then load the primary module. -/
def load_module_with_dependencies (w : LoadWorld) (st : LoadState)
    (rule : DriverRule) : Bool × LoadState × List String :=
  if st.failed.contains rule.kld then (false, st, [])
  else
    let depRes := (get_dependencies rule).foldl
      (fun acc dep =>
        if w.isLoaded dep then acc
        else
          let r := load_single_module w acc.1 dep
          (r.2.1, acc.2 ++ r.2.2))
      (st, ([] : List String))
    let mainRes := load_single_module w depRes.1 rule.kld
    (mainRes.1, mainRes.2.1, depRes.2 ++ mainRes.2.2)

/-- The fixed whitelist in `generate_loader_conf_entries`
(`boot_drivers`). -/
def boot_drivers : List String :=
  ["if_em", "if_igb", "if_ix", "if_re", "if_bge", "if_alc",
   "if_axge", "if_axe", "if_ure", "if_cdce",
   "if_iwm", "if_iwlwifi", "if_ath", "if_ath10k", "if_ath11k",
   "if_rtwn", "if_rtw88", "if_rtw89", "if_bwi",
   "if_urtwn", "if_run", "if_rum", "if_ural"]

/-- The `<driver>_load="YES"` entry. -/
def loaderLoadEntry (d : String) : SystemConfigEntry :=
  { file_path := loaderConfPath
    key := d.toList ++ sl "_load"
    value := sl "YES"
    comment := some (sl "Load " ++ d.toList ++ sl " network driver at boot") }

/-- The `<driver>_name="/boot/modules/<driver>.ko"` entry. -/
def loaderNameEntry (d : String) : SystemConfigEntry :=
  { file_path := loaderConfPath
    key := d.toList ++ sl "_name"
    value := sl "/boot/modules/" ++ d.toList ++ sl ".ko"
    comment := some (sl "Specify path for " ++ d.toList ++ sl " kernel module") }

def linuxkpiEntry : SystemConfigEntry :=
  { file_path := loaderConfPath
    key := sl "linuxkpi_load"
    value := sl "YES"
    comment := some (sl "Linux KPI compatibility layer for modern WiFi drivers") }

def lindebugfsEntry : SystemConfigEntry :=
  { file_path := loaderConfPath
    key := sl "lindebugfs_load"
    value := sl "YES"
    comment := some (sl "Linux debugfs compatibility for WiFi drivers") }

/-- The drivers whose presence among the successful drivers triggers the
`linuxkpi`/`lindebugfs` dependency entries. -/
def modernWifiDrivers : List String :=
  ["if_iwlwifi", "if_rtw88", "if_rtw89", "if_ath11k"]

/-- `SystemConfigManager.generate_loader_conf_entries`.  The
`firmware_installed` argument is accepted and ignored, exactly as in the
source. -/
def generate_loader_conf_entries (successful_drivers : List String)
    (firmware_installed : List String) : List SystemConfigEntry :=
  let _ := firmware_installed
  (successful_drivers.flatMap fun d =>
    if boot_drivers.contains d then [loaderLoadEntry d, loaderNameEntry d]
    else []) ++
  (if modernWifiDrivers.any (fun d => successful_drivers.contains d) then
    [linuxkpiEntry, lindebugfsEntry]
  else [])

/-- The Intel WiFi 6E AX210 descriptor of Scenario C
(vendor 0x8086, device 0x2725, PCI). -/
def ax210Device : NetworkDevice :=
  { vendor := "0x8086", device := "0x2725", device_class := some "0x0280"
    is_usb := false, device_type := .wifi }

/-- The Intel WiFi AX210 rule (the thirteenth rule of the table). -/
def ax210Rule : DriverRule :=
  { kld := "if_iwlwifi", vendor := some "0x8086"
    device_ids := some ["0x2725", "0x51f0", "0x51f1", "0x54f0", "0x7af0"]
    firmware := some "wifi-firmware-iwlwifi-kmod-ax210"
    description := some "Intel WiFi 6E AX210 series"
    device_type := .wifi, load_order := 58
    dependencies := ["linuxkpi", "lindebugfs"] }

/-- The generic Intel WiFi rule (the twelfth rule of the table). -/
def iwlwifiGenericRule : DriverRule :=
  { kld := "if_iwlwifi", vendor := some "0x8086"
    device_ids := some ["0x2723", "0x2725", "0x271b", "0x271c", "0x2720", "0x30dc",
                        "0x31dc", "0x9df0", "0x02f0", "0x06f0", "0x34f0", "0x43f0",
                        "0xa0f0", "0x2526", "0x51f0", "0x51f1", "0x54f0", "0x7af0"]
    firmware := some "wifi-firmware-iwlwifi-kmod"
    description := some "Intel WiFi 6E/6/AC (AX200/AX201/AX210/AC9560/AC9260/BE200)"
    device_type := .wifi, load_order := 60
    dependencies := ["linuxkpi", "lindebugfs"] }

/-- A USB descriptor with the Realtek PCI vendor id 0x10ec and network
device class (Scenario D). -/
def usbRealtekDevice : NetworkDevice :=
  { vendor := "0x10ec", device := "0x8153", device_class := some "0x02"
    is_usb := true, device_type := .usb_ethernet }

/-- The USB CDC Ethernet rule (the eleventh rule of the table). -/
def cdceRule : DriverRule :=
  { kld := "if_cdce", device_class := some USB_NETWORK_CLASS, is_usb := true
    description := some "USB CDC Ethernet"
    device_type := .usb_ethernet, load_order := 55 }

/-- A run in which nothing is loaded and every `kldload` fails. -/
def c6World : LoadWorld :=
  { isLoaded := fun _ => false, loadOk := fun _ => false }

/-- A load state in which `linuxkpi` has already failed. -/
def c6State : LoadState := { loaded := [], failed := ["linuxkpi"] }

/-- The Realtek rtw88 rule (the twenty-second rule of the table), whose
prerequisite list contains `linuxkpi`. -/
def rtw88Rule : DriverRule :=
  { kld := "if_rtw88", vendor := some "0x10ec"
    device_ids := some ["0x8822", "0x8821", "0xb822", "0xc822", "0x8723", "0xb723"]
    firmware := some "wifi-firmware-rtw88-kmod"
    description := some "Realtek WiFi 5 (RTL8822BE/RTL8822CE/RTL8723DE)"
    device_type := .wifi, load_order := 90
    dependencies := ["linuxkpi"] }

/-- The oracle of a run whose temp-file write/rename fails. -/
def c1World : SyncWorld :=
  { backupOk := true, writeOk := false
    backupPath := sl "/var/backups/netpilot/loader.conf.20260101_000000.backup"
    stamp := sl "2026-01-01 00:00:00", ts := sl "2026-01-01T00:00:00" }

def c1Entry : SystemConfigEntry :=
  { key := sl "if_igb_load", value := sl "YES" }

/-- The oracle of a run whose backup copy and write both succeed. -/
def c5World : SyncWorld :=
  { backupOk := true, writeOk := true
    backupPath := sl "/var/backups/netpilot/loader.conf.20260101_000000.backup"
    stamp := sl "2026-01-01 00:00:00", ts := sl "2026-01-01T00:00:00" }

/-- The keys collected by `write_config_file`'s loop (`processed_keys`):
the parsed key of each existing line whose key matches some new entry. -/
def processedKeys (lines : List Line) (E : List SystemConfigEntry) : List Line :=
  lines.filterMap fun l =>
    match lineKey? l with
    | some k => if (E.find? (fun e => e.key = k)).isSome then some k else none
    | none => none

/-- A well-formed configuration key: one the `key="value"` print/parse
pair of `write_config_file`/`read_config_file` round-trips — nonempty,
not starting with `#` or whitespace, not ending with whitespace, free of
`=`, and (for the line-based file model) free of newlines. -/
def cleanKey (k : Line) : Bool :=
  !k.isEmpty &&
  k.head?.all (fun c => !isSpaceChar c && !(c = '#')) &&
  k.getLast?.all (fun c => !isSpaceChar c) &&
  !k.contains '=' && !k.contains '\n'

/-- A well-formed configuration value: quote-stripping recovers it —
no double quote at either end, and no newline. -/
def cleanValue (v : Line) : Bool :=
  v.head?.all (fun c => !(c = '"')) &&
  v.getLast?.all (fun c => !(c = '"')) && !v.contains '\n'

/-- The contribution of one line to the mapping at key `κ`. -/
def projLine (κ : Line) (l : Line) : Option Line :=
  match parsedKV l with
  | some kv => if kv.1 = κ then some kv.2 else none
  | none => none

/-- The values successively bound to key `κ` by a list of lines. -/
def proj (κ : Line) (lines : List Line) : List Line :=
  lines.filterMap (projLine κ)

/-- An entry whose value is a single double-quote character — the
`key="value"` form `k="""` strips back to the empty value. -/
def c2BadEntry : SystemConfigEntry := { key := sl "k", value := ['"'] }

/-! ## Helper lemmas: the matcher's minimum -/

theorem minByLoadOrder_nil (r : DriverRule) : minByLoadOrder r [] = r := rfl

theorem minByLoadOrder_cons (r a : DriverRule) (rs : List DriverRule) :
    minByLoadOrder r (a :: rs) =
      minByLoadOrder (if a.load_order < r.load_order then a else r) rs := rfl

theorem minByLoadOrder_mem (r : DriverRule) (rs : List DriverRule) :
    minByLoadOrder r rs ∈ r :: rs := by
  induction rs generalizing r with
  | nil => simp [minByLoadOrder_nil]
  | cons a rs ih =>
    rw [minByLoadOrder_cons]
    rcases List.mem_cons.1 (ih (if a.load_order < r.load_order then a else r)) with h | h
    · rw [h]
      split
      · exact List.mem_cons_of_mem _ (List.mem_cons_self _ _)
      · exact List.mem_cons_self _ _
    · exact List.mem_cons_of_mem _ (List.mem_cons_of_mem _ h)

theorem minByLoadOrder_le (r : DriverRule) (rs : List DriverRule) :
    ∀ x ∈ r :: rs, (minByLoadOrder r rs).load_order ≤ x.load_order := by
  induction rs generalizing r with
  | nil =>
    intro x hx
    rw [List.mem_singleton] at hx
    subst hx
    simp [minByLoadOrder_nil]
  | cons a rs ih =>
    intro x hx
    rw [minByLoadOrder_cons]
    have hhead := ih (if a.load_order < r.load_order then a else r) _
      (List.mem_cons_self _ _)
    have hr : (if a.load_order < r.load_order then a else r).load_order ≤
        r.load_order := by split <;> omega
    have ha : (if a.load_order < r.load_order then a else r).load_order ≤
        a.load_order := by split <;> omega
    rcases List.mem_cons.1 hx with h | h
    · subst h; omega
    · rcases List.mem_cons.1 h with h' | h'
      · subst h'; omega
      · exact ih _ x (List.mem_cons_of_mem _ h')

theorem minByLoadOrder_split (r : DriverRule) (rs : List DriverRule) :
    ∃ l₁ l₂, r :: rs = l₁ ++ minByLoadOrder r rs :: l₂ ∧
      ∀ x ∈ l₁, (minByLoadOrder r rs).load_order < x.load_order := by
  induction rs generalizing r with
  | nil => exact ⟨[], [], by simp [minByLoadOrder_nil], by simp⟩
  | cons a rs ih =>
    rw [minByLoadOrder_cons]
    by_cases hlt : a.load_order < r.load_order
    · rw [if_pos hlt]
      obtain ⟨l₁, l₂, heq, hall⟩ := ih a
      have hle : (minByLoadOrder a rs).load_order ≤ a.load_order :=
        minByLoadOrder_le a rs a (List.mem_cons_self _ _)
      refine ⟨r :: l₁, l₂, ?_, ?_⟩
      · rw [List.cons_append, ← heq]
      · intro x hx
        rcases List.mem_cons.1 hx with h | h
        · subst h; omega
        · exact hall x h
    · rw [if_neg hlt]
      obtain ⟨l₁, l₂, heq, hall⟩ := ih r
      cases l₁ with
      | nil =>
        rw [List.nil_append] at heq
        have hmr : minByLoadOrder r rs = r := ((List.cons.inj heq).1).symm
        refine ⟨[], a :: rs, ?_, by simp⟩
        rw [hmr, List.nil_append]
      | cons b l₁' =>
        rw [List.cons_append] at heq
        obtain ⟨hb, hrs⟩ := List.cons.inj heq
        subst hb
        have hminr : (minByLoadOrder r rs).load_order < r.load_order :=
          hall r (List.mem_cons_self _ _)
        refine ⟨r :: a :: l₁', l₂, ?_, ?_⟩
        · conv_lhs => rw [hrs]
          simp
        · intro x hx
          rcases List.mem_cons.1 hx with h | h
          · subst h; exact hminr
          · rcases List.mem_cons.1 h with h' | h'
            · subst h'; omega
            · exact hall x (List.mem_cons_of_mem _ h')

theorem match_device_eq_some {rules : List DriverRule} {bl : List String}
    {d : NetworkDevice} {m : DriverRule}
    (h : match_device rules bl d = some m) :
    ∃ r rs, matchingRules rules bl d = r :: rs ∧ m = minByLoadOrder r rs := by
  unfold match_device at h
  rcases heq : matchingRules rules bl d with _ | ⟨r, rs⟩
  · rw [heq] at h; exact absurd h (by simp)
  · rw [heq] at h
    refine ⟨r, rs, rfl, ?_⟩
    injection h with h'
    exact h'.symm

theorem match_device_mem {rules : List DriverRule} {bl : List String}
    {d : NetworkDevice} {m : DriverRule}
    (h : match_device rules bl d = some m) :
    m ∈ matchingRules rules bl d := by
  obtain ⟨r, rs, heq, hm⟩ := match_device_eq_some h
  rw [heq, hm]
  exact minByLoadOrder_mem r rs

/-- C3: for every descriptor, when `match_device` returns a rule, that
rule passes every declared predicate, has minimal `load_order` among all
passing rules, and is the earliest-declared rule attaining that minimum
(every passing rule declared before it has strictly larger
`load_order`), so resolution is deterministic. -/
theorem match_device_returns_first_min (d : NetworkDevice) (m : DriverRule)
    (h : matchDeviceDb d = some m) :
    m ∈ matchingRules comprehensive_rules driver_blacklist d ∧
    (∀ r ∈ matchingRules comprehensive_rules driver_blacklist d,
      m.load_order ≤ r.load_order) ∧
    ∃ l₁ l₂, matchingRules comprehensive_rules driver_blacklist d =
        l₁ ++ m :: l₂ ∧
      ∀ r ∈ l₁, m.load_order < r.load_order := by
  obtain ⟨r, rs, heq, hm⟩ := match_device_eq_some h
  refine ⟨?_, ?_, ?_⟩
  · rw [heq, hm]; exact minByLoadOrder_mem r rs
  · rw [heq, hm]; exact minByLoadOrder_le r rs
  · rw [heq, hm]; exact minByLoadOrder_split r rs

/-- Witness for C3 at the AX210 descriptor: of the three passing Intel
WiFi rules (priorities 58, 59 is absent for this id set, 60, 61 absent),
the matcher picks the AX210 rule with minimal priority 58. -/
theorem match_device_returns_first_min_witness :
    matchDeviceDb ax210Device = some ax210Rule ∧
    ax210Rule ∈ matchingRules comprehensive_rules driver_blacklist ax210Device ∧
    ∀ r ∈ matchingRules comprehensive_rules driver_blacklist ax210Device,
      ax210Rule.load_order ≤ r.load_order := by
  have h : matchDeviceDb ax210Device = some ax210Rule := by decide
  exact ⟨h, (match_device_returns_first_min ax210Device ax210Rule h).1,
    (match_device_returns_first_min ax210Device ax210Rule h).2.1⟩

/-- C7: every rule returned by `match_device` has a USB flag equal to
the descriptor's bus kind, so a USB descriptor can only match
USB-flagged rules and a PCI rule with the same vendor id is never
returned. -/
theorem match_device_bus_kind (d : NetworkDevice) (m : DriverRule)
    (h : matchDeviceDb d = some m) : m.is_usb = d.is_usb := by
  have hmem := match_device_mem
    (show match_device comprehensive_rules driver_blacklist d = some m from h)
  have hmatch := List.of_mem_filter hmem
  unfold ruleMatches at hmatch
  simp only [Bool.and_eq_true, beq_iff_eq] at hmatch
  exact hmatch.1.1.1.1.2

/-- Witness for C7 (Scenario D): a USB descriptor with the Realtek
vendor id 0x10ec and network device class matches the USB-flagged
`if_cdce` rule, whose bus kind agrees with the descriptor's. -/
theorem match_device_bus_kind_witness :
    matchDeviceDb usbRealtekDevice = some cdceRule ∧
    cdceRule.is_usb = usbRealtekDevice.is_usb := by
  have h : matchDeviceDb usbRealtekDevice = some cdceRule := by decide
  exact ⟨h, match_device_bus_kind usbRealtekDevice cdceRule h⟩

/-! ## Claim C4 — two-tier firmware resolution -/

theorem firmwareOverride_empty (v : Option String) (dev : String) :
    firmwareOverride v "" dev = none := by
  unfold firmwareOverride firmwareBranch
  rw [show strContainsSub "" "iwlwifi" = false from rfl,
    show strContainsSub "" "ath10k" = false from rfl,
    show strContainsSub "" "ath11k" = false from rfl,
    show strContainsSub "" "rtw88" = false from rfl,
    show strContainsSub "" "rtw89" = false from rfl]
  simp

/-- C4: the firmware resolver returns the device-specific override when
the applicable family override table contains the descriptor's device
id, else the rule's generic firmware identifier, else `none` when the
rule declares no firmware; in particular the PCI descriptor with vendor
0x8086 and device 0x2725 matches the AX210 rule and resolves to the
ax210-specific firmware package, not the generic Intel WiFi one. -/
theorem get_specific_firmware_package_spec :
    (∀ (d : NetworkDevice) (rule : DriverRule), rule.firmware = none →
      get_specific_firmware_package d rule = none) ∧
    (∀ (d : NetworkDevice) (rule : DriverRule) (fw o : String),
      rule.firmware = some fw →
      firmwareOverride rule.vendor fw d.device = some o →
      get_specific_firmware_package d rule = some o) ∧
    (∀ (d : NetworkDevice) (rule : DriverRule) (fw : String),
      rule.firmware = some fw → fw.isEmpty = false →
      firmwareOverride rule.vendor fw d.device = none →
      get_specific_firmware_package d rule = some fw) ∧
    (matchDeviceDb ax210Device = some ax210Rule ∧
      get_specific_firmware_package ax210Device ax210Rule =
        some "wifi-firmware-iwlwifi-kmod-ax210" ∧
      get_specific_firmware_package ax210Device iwlwifiGenericRule =
        some "wifi-firmware-iwlwifi-kmod-ax210" ∧
      get_specific_firmware_package ax210Device ax210Rule ≠
        some "wifi-firmware-iwlwifi-kmod") := by
  refine ⟨?_, ?_, ?_, by decide, by decide, by decide, by decide⟩
  · intro d rule h
    unfold get_specific_firmware_package
    rw [h]
  · intro d rule fw o h hov
    unfold get_specific_firmware_package
    rw [h]
    cases he : fw.isEmpty with
    | true =>
      rw [String.isEmpty_iff] at he
      subst he
      rw [firmwareOverride_empty] at hov
      exact absurd hov (by simp)
    | false => simp [he, hov]
  · intro d rule fw h he hov
    unfold get_specific_firmware_package
    rw [h]
    simp [he, hov]

/-- Witness for C4: a rule with no firmware resolves to `none`; the
AX210 rule with the AX210 descriptor resolves to the device-specific
package through the override table. -/
theorem get_specific_firmware_package_spec_witness :
    get_specific_firmware_package ax210Device { kld := "if_ath" } = none ∧
    get_specific_firmware_package ax210Device ax210Rule =
      some "wifi-firmware-iwlwifi-kmod-ax210" ∧
    get_specific_firmware_package ax210Device iwlwifiGenericRule =
      some "wifi-firmware-iwlwifi-kmod-ax210" := by
  refine ⟨get_specific_firmware_package_spec.1 ax210Device { kld := "if_ath" } rfl,
    get_specific_firmware_package_spec.2.1 ax210Device ax210Rule
      "wifi-firmware-iwlwifi-kmod-ax210" "wifi-firmware-iwlwifi-kmod-ax210"
      rfl (by decide),
    get_specific_firmware_package_spec.2.1 ax210Device iwlwifiGenericRule
      "wifi-firmware-iwlwifi-kmod" "wifi-firmware-iwlwifi-kmod-ax210"
      rfl (by decide)⟩

/-- Counterexample to C6 as stated: with `linuxkpi` recorded in the
failed set, resolving a rule that lists `linuxkpi` as a prerequisite
invokes `kldload linuxkpi` again — the dependency loop of
`_load_module_with_dependencies` never consults `failed_modules`. -/
theorem load_failed_dependency_reattempted :
    "linuxkpi" ∈ c6State.failed ∧
    "linuxkpi" ∈ (load_module_with_dependencies c6World c6State rtw88Rule).2.2 := by
  decide

/-- C6 (amended): a module recorded in the failed set is never
re-attempted as the *matched primary* module — resolution returns
failure immediately, with no state change and no loader invocation.
(As shown by the counterexample, the guard does not extend to the
module's occurrences as a prerequisite of another rule.) -/
theorem load_module_skips_failed_primary (w : LoadWorld) (st : LoadState)
    (rule : DriverRule) (h : rule.kld ∈ st.failed) :
    load_module_with_dependencies w st rule = (false, st, []) := by
  unfold load_module_with_dependencies
  rw [if_pos (List.elem_eq_true_of_mem h)]

/-- Witness for C6: a rule whose module `if_rtw88` is in the failed set
is skipped with no `kldload` invocation. -/
theorem load_module_skips_failed_primary_witness :
    load_module_with_dependencies c6World
      { loaded := [], failed := ["if_rtw88"] } rtw88Rule =
      (false, { loaded := [], failed := ["if_rtw88"] }, []) :=
  load_module_skips_failed_primary c6World
    { loaded := [], failed := ["if_rtw88"] } rtw88Rule (by decide)

/-- C10: calling `add_loader_conf_entries` or `add_rc_conf_entries` with
an empty entry list returns success with the file untouched, the journal
unchanged, and an empty effect trace (no backup, no read, no write). -/
theorem add_conf_entries_empty_noop :
    ∀ (w : SyncWorld) (contents : Option (List Line))
      (journal : List ConfigurationChange),
      add_loader_conf_entries w contents journal [] =
        { ok := true, file := contents, journal := journal, events := [] } ∧
      add_rc_conf_entries w contents journal [] =
        { ok := true, file := contents, journal := journal, events := [] } := by
  intro w c j
  exact ⟨rfl, rfl⟩

/-! ## Claim C1 — journal versus write failure -/

theorem add_conf_entries_journal (w : SyncWorld) (p : Line)
    (c : Option (List Line)) (j : List ConfigurationChange)
    (E : List SystemConfigEntry) (hne : E ≠ []) :
    (add_conf_entries w p c j E).journal =
      j ++ (changedEntries (read_config_file c) E).map
        (mkChange w p (read_config_file c) (backup_file w c).1) := by
  unfold add_conf_entries
  rw [if_neg (by simpa using hne)]
  dsimp only
  split
  · rfl
  · unfold write_config_file
    split <;> rfl

theorem changedEntries_ne_nil_of {cfg : Config} {E : List SystemConfigEntry}
    (h : changedEntries cfg E ≠ []) : E ≠ [] := by
  intro hE
  subst hE
  exact h rfl

theorem add_conf_entries_write_failure (w : SyncWorld) (p : Line)
    (c : Option (List Line)) (j : List ConfigurationChange)
    (E : List SystemConfigEntry) (hw : w.writeOk = false)
    (hch : changedEntries (read_config_file c) E ≠ []) :
    (add_conf_entries w p c j E).ok = false ∧
    (add_conf_entries w p c j E).file = c := by
  unfold add_conf_entries
  rw [if_neg (by simpa using changedEntries_ne_nil_of hch)]
  dsimp only
  rw [if_neg (by simpa using hch)]
  unfold write_config_file
  rw [hw]
  exact ⟨rfl, rfl⟩

/-- C1 (amended): the journal records for the changing entries are
appended *before* the rewrite is attempted — on a write failure
(temp-file creation or rename) the call reports failure and the file is
unchanged, but the journal has still gained one `ConfigurationChange`
per changing entry. -/
theorem add_loader_conf_entries_journal_on_write_failure (w : SyncWorld)
    (c : Option (List Line)) (j : List ConfigurationChange)
    (E : List SystemConfigEntry) (hw : w.writeOk = false) (hne : E ≠ []) :
    (add_loader_conf_entries w c j E).journal =
      j ++ (changedEntries (read_config_file c) E).map
        (mkChange w loaderConfPath (read_config_file c)
          (backup_file w c).1) ∧
    (changedEntries (read_config_file c) E ≠ [] →
      (add_loader_conf_entries w c j E).ok = false ∧
      (add_loader_conf_entries w c j E).file = c) := by
  exact ⟨add_conf_entries_journal w loaderConfPath c j E hne,
    fun hch => add_conf_entries_write_failure w loaderConfPath c j E hw hch⟩

/-- Witness for C1 at a concrete failing write. -/
theorem add_loader_conf_entries_journal_on_write_failure_witness :
    (add_loader_conf_entries c1World none [] [c1Entry]).journal =
      [] ++ (changedEntries (read_config_file none) [c1Entry]).map
        (mkChange c1World loaderConfPath (read_config_file none)
          (backup_file c1World none).1) ∧
    (changedEntries (read_config_file none) [c1Entry] ≠ [] →
      (add_loader_conf_entries c1World none [] [c1Entry]).ok = false ∧
      (add_loader_conf_entries c1World none [] [c1Entry]).file = none) :=
  add_loader_conf_entries_journal_on_write_failure c1World none [] [c1Entry]
    rfl (by decide)

/-- Counterexample to C1 as stated: on this failed write the call
returns failure yet the journal has gained a record. -/
theorem journal_nonempty_after_write_failure :
    (add_loader_conf_entries c1World none [] [c1Entry]).ok = false ∧
    (add_loader_conf_entries c1World none [] [c1Entry]).journal ≠ [] := by
  decide

/-! ## Claim C5 — backup semantics -/

theorem backup_event_iff (w : SyncWorld) (c : Option (List Line)) :
    SyncEvent.backupCopy ∈ (backup_file w c).2 ↔
      (c.isSome = true ∧ w.backupOk = true) := by
  cases c <;> cases hb : w.backupOk <;> simp [backup_file, hb]

theorem add_conf_entries_backup_event (w : SyncWorld) (p : Line)
    (c : Option (List Line)) (j : List ConfigurationChange)
    (E : List SystemConfigEntry) :
    SyncEvent.backupCopy ∈ (add_conf_entries w p c j E).events ↔
      (E ≠ [] ∧ c.isSome = true ∧ w.backupOk = true) := by
  by_cases hE : E = []
  · subst hE; simp [add_conf_entries]
  · unfold add_conf_entries
    rw [if_neg (by simpa using hE)]
    dsimp only
    split
    · simp [backup_event_iff, hE]
    · unfold write_config_file
      split <;> simp [backup_event_iff, hE]

theorem add_conf_entries_backup_before_write (w : SyncWorld) (p : Line)
    (c : Option (List Line)) (j : List ConfigurationChange)
    (E : List SystemConfigEntry) :
    ∃ pre post, (add_conf_entries w p c j E).events = pre ++ post ∧
      SyncEvent.writeAttempt ∉ pre ∧ SyncEvent.backupCopy ∉ post := by
  by_cases hE : E = []
  · subst hE
    exact ⟨[], [], by simp [add_conf_entries], by simp, by simp⟩
  · unfold add_conf_entries
    rw [if_neg (by simpa using hE)]
    dsimp only
    have hpre : SyncEvent.writeAttempt ∉
        (backup_file w c).2 ++ [SyncEvent.readConfig] := by
      cases c <;> cases hb : w.backupOk <;> simp [backup_file, hb]
    split
    · exact ⟨(backup_file w c).2 ++ [.readConfig], [], by simp, hpre, by simp⟩
    · unfold write_config_file
      split
      · exact ⟨(backup_file w c).2 ++ [.readConfig], [.writeAttempt, .renameOk],
          by simp, hpre, by simp⟩
      · exact ⟨(backup_file w c).2 ++ [.readConfig], [.writeAttempt],
          by simp, hpre, by simp⟩

theorem add_conf_entries_backup_failure_nonblocking (w : SyncWorld) (p : Line)
    (c : Option (List Line)) (j : List ConfigurationChange)
    (E : List SystemConfigEntry) :
    (add_conf_entries { w with backupOk := false } p c j E).ok =
      (add_conf_entries w p c j E).ok ∧
    (add_conf_entries { w with backupOk := false } p c j E).file =
      (add_conf_entries w p c j E).file := by
  by_cases hE : E = []
  · subst hE; exact ⟨rfl, rfl⟩
  · unfold add_conf_entries
    have h : ¬(E.isEmpty = true) := by simpa using hE
    rw [if_neg h, if_neg h]
    dsimp only
    cases hch : (changedEntries (read_config_file c) E).isEmpty <;>
      cases hwo : w.writeOk <;>
        simp [write_config_file, hch, hwo]

/-- C5 (amended): during synchronization the existing file is copied to
the timestamped backup exactly when the entry list is nonempty, the file
exists, and the copy raises no error — *regardless of whether any entry
actually changes anything*; the backup always happens before the write
attempt, and a backup failure does not change the call's result or the
written file. -/
theorem add_loader_conf_entries_backup_semantics :
    (∀ (w : SyncWorld) (c : Option (List Line))
      (j : List ConfigurationChange) (E : List SystemConfigEntry),
      SyncEvent.backupCopy ∈ (add_loader_conf_entries w c j E).events ↔
        (E ≠ [] ∧ c.isSome = true ∧ w.backupOk = true)) ∧
    (∀ (w : SyncWorld) (c : Option (List Line))
      (j : List ConfigurationChange) (E : List SystemConfigEntry),
      ∃ pre post, (add_loader_conf_entries w c j E).events = pre ++ post ∧
        SyncEvent.writeAttempt ∉ pre ∧ SyncEvent.backupCopy ∉ post) ∧
    (∀ (w : SyncWorld) (c : Option (List Line))
      (j : List ConfigurationChange) (E : List SystemConfigEntry),
      (add_loader_conf_entries { w with backupOk := false } c j E).ok =
        (add_loader_conf_entries w c j E).ok ∧
      (add_loader_conf_entries { w with backupOk := false } c j E).file =
        (add_loader_conf_entries w c j E).file) :=
  ⟨fun w c j E => add_conf_entries_backup_event w loaderConfPath c j E,
   fun w c j E => add_conf_entries_backup_before_write w loaderConfPath c j E,
   fun w c j E => add_conf_entries_backup_failure_nonblocking w loaderConfPath c j E⟩

/-- Counterexample to C5 as stated ("backed up if and only if at least
one desired entry actually changes something"): when the single desired
entry already holds with the identical value, nothing changes (the
journal stays empty and no write is attempted) yet the existing file is
still copied to a backup. -/
theorem backup_taken_without_changes :
    SyncEvent.backupCopy ∈
      (add_loader_conf_entries c5World
        (some [mkEntryLine (sl "if_igb_load") (sl "YES")]) [] [c1Entry]).events ∧
    (add_loader_conf_entries c5World
      (some [mkEntryLine (sl "if_igb_load") (sl "YES")]) [] [c1Entry]).journal = [] ∧
    SyncEvent.writeAttempt ∉
      (add_loader_conf_entries c5World
        (some [mkEntryLine (sl "if_igb_load") (sl "YES")]) [] [c1Entry]).events := by
  decide

/-! ## Claim C9 — whitelist-restricted loader.conf generation -/

theorem linuxkpiEntry_ne_load (d : String) : linuxkpiEntry ≠ loaderLoadEntry d :=
  fun h => absurd
    (congrArg (fun e => e.comment.map fun c => (c.drop 1).head?) h :
      (some (some 'i') : Option (Option Char)) = some (some 'o'))
    (by decide)

theorem linuxkpiEntry_ne_name (d : String) : linuxkpiEntry ≠ loaderNameEntry d :=
  fun h => absurd
    (congrArg (fun e => e.comment.map fun c => (c.drop 1).head?) h :
      (some (some 'i') : Option (Option Char)) = some (some 'p'))
    (by decide)

theorem lindebugfsEntry_ne_load (d : String) : lindebugfsEntry ≠ loaderLoadEntry d :=
  fun h => absurd
    (congrArg (fun e => e.comment.map fun c => (c.drop 1).head?) h :
      (some (some 'i') : Option (Option Char)) = some (some 'o'))
    (by decide)

theorem lindebugfsEntry_ne_name (d : String) : lindebugfsEntry ≠ loaderNameEntry d :=
  fun h => absurd
    (congrArg (fun e => e.comment.map fun c => (c.drop 1).head?) h :
      (some (some 'i') : Option (Option Char)) = some (some 'p'))
    (by decide)

/-- C9: `generate_loader_conf_entries` emits the
`<driver>_load`/`<driver>_name` pair exactly for the successfully loaded
drivers inside the fixed `boot_drivers` whitelist; every emitted entry
is such a pair or one of the `linuxkpi_load`/`lindebugfs_load` entries;
the latter two appear exactly when one of `if_iwlwifi`, `if_rtw88`,
`if_rtw89`, `if_ath11k` was loaded successfully; and a successful driver
outside the whitelist (e.g. `if_ath12k`, `if_mt76`, `if_mt7601u`)
produces nothing. -/
theorem generate_loader_conf_entries_whitelist :
    (∀ (s fw : List String) (d : String), d ∈ s → d ∈ boot_drivers →
      loaderLoadEntry d ∈ generate_loader_conf_entries s fw ∧
      loaderNameEntry d ∈ generate_loader_conf_entries s fw) ∧
    (∀ (s fw : List String) (e : SystemConfigEntry),
      e ∈ generate_loader_conf_entries s fw →
      (∃ d, d ∈ s ∧ d ∈ boot_drivers ∧
        (e = loaderLoadEntry d ∨ e = loaderNameEntry d)) ∨
      e = linuxkpiEntry ∨ e = lindebugfsEntry) ∧
    (∀ s fw : List String,
      (linuxkpiEntry ∈ generate_loader_conf_entries s fw ∧
       lindebugfsEntry ∈ generate_loader_conf_entries s fw) ↔
      ∃ d ∈ modernWifiDrivers, d ∈ s) ∧
    (∀ fw : List String,
      generate_loader_conf_entries ["if_ath12k", "if_mt76", "if_mt7601u"] fw = []) := by
  refine ⟨?_, ?_, ?_, ?_⟩
  · intro s fw d hds hdb
    constructor <;>
      (apply List.mem_append_left
       refine List.mem_flatMap.2 ⟨d, hds, ?_⟩
       rw [if_pos (List.elem_eq_true_of_mem hdb)]
       simp)
  · intro s fw e he
    rcases List.mem_append.1 he with h | h
    · obtain ⟨d, hd, hin⟩ := List.mem_flatMap.1 h
      by_cases hb : boot_drivers.contains d = true
      · rw [if_pos hb] at hin
        simp only [List.mem_cons, List.not_mem_nil, or_false] at hin
        exact Or.inl ⟨d, hd, List.mem_of_elem_eq_true hb, hin⟩
      · rw [if_neg hb] at hin
        exact absurd hin (List.not_mem_nil e)
    · by_cases hc : modernWifiDrivers.any (fun x => s.contains x) = true
      · rw [if_pos hc] at h
        simp only [List.mem_cons, List.not_mem_nil, or_false] at h
        exact Or.inr h
      · rw [if_neg hc] at h
        exact absurd h (List.not_mem_nil e)
  · intro s fw
    constructor
    · rintro ⟨h1, -⟩
      rcases List.mem_append.1 h1 with h | h
      · obtain ⟨d, hd, hin⟩ := List.mem_flatMap.1 h
        by_cases hb : boot_drivers.contains d = true
        · rw [if_pos hb] at hin
          simp only [List.mem_cons, List.not_mem_nil, or_false] at hin
          rcases hin with h' | h'
          · exact absurd h' (linuxkpiEntry_ne_load d)
          · exact absurd h' (linuxkpiEntry_ne_name d)
        · rw [if_neg hb] at hin
          exact absurd hin (List.not_mem_nil _)
      · by_cases hc : modernWifiDrivers.any (fun x => s.contains x) = true
        · obtain ⟨d, hdm, hds⟩ := List.any_eq_true.1 hc
          exact ⟨d, hdm, List.mem_of_elem_eq_true hds⟩
        · rw [if_neg hc] at h
          exact absurd h (List.not_mem_nil _)
    · rintro ⟨d, hdm, hds⟩
      have hc : modernWifiDrivers.any (fun x => s.contains x) = true :=
        List.any_eq_true.2 ⟨d, hdm, List.elem_eq_true_of_mem hds⟩
      constructor <;>
        (apply List.mem_append_right
         rw [if_pos hc]
         simp)
  · intro fw
    rfl

/-- Witness for C9: a whitelisted successful driver gets its pair. -/
theorem generate_loader_conf_entries_whitelist_witness :
    loaderLoadEntry "if_igb" ∈ generate_loader_conf_entries ["if_igb"] [] ∧
    loaderNameEntry "if_igb" ∈ generate_loader_conf_entries ["if_igb"] [] :=
  generate_loader_conf_entries_whitelist.1 ["if_igb"] [] "if_igb"
    (by decide) (by decide)

theorem foldl_writeStep (E : List SystemConfigEntry) (lines : List Line)
    (b k : List Line) :
    lines.foldl (writeStep E) (b, k) =
      (b ++ lines.map (rewriteLine E), k ++ processedKeys lines E) := by
  induction lines generalizing b k with
  | nil => simp [processedKeys]
  | cons l ls ih =>
    rw [List.foldl_cons]
    have hstep : writeStep E (b, k) l =
        (b ++ [rewriteLine E l],
         k ++ (match lineKey? l with
               | some key =>
                 if (E.find? (fun e => e.key = key)).isSome then [key] else []
               | none => [])) := by
      unfold writeStep rewriteLine
      cases hk : lineKey? l with
      | none => simp
      | some key =>
        cases hf : E.find? (fun e => e.key = key) with
        | none => simp [hf]
        | some e => simp [hf]
    rw [hstep, ih]
    have hpk : processedKeys (l :: ls) E =
        (match lineKey? l with
         | some key =>
           if (E.find? (fun e => e.key = key)).isSome then [key] else []
         | none => []) ++ processedKeys ls E := by
      unfold processedKeys
      rw [List.filterMap_cons]
      cases hk : lineKey? l with
      | none => simp
      | some key =>
        cases hf : (E.find? (fun e => e.key = key)).isSome <;> simp [hf]
    rw [hpk]
    cases hk : lineKey? l <;> simp

theorem writeConfigLines_eq (existing : List Line)
    (E : List SystemConfigEntry) (stamp : Line) :
    writeConfigLines existing E stamp =
      (if (E.filter fun e => !(processedKeys existing E).contains e.key).isEmpty
       then existing.map (rewriteLine E)
       else existing.map (rewriteLine E) ++ [[], netpilotMarker stamp] ++
         (E.filter fun e => !(processedKeys existing E).contains e.key).flatMap
           entryBlock) := by
  unfold writeConfigLines
  rw [foldl_writeStep]
  simp

/-- C8: `write_config_file` rewrites each original line independently
and in place — the new content begins with the image of the original
lines under `rewriteLine` (so every line keeps its position), a line
whose key matches no changing entry passes through byte-identical, a
line whose key matches a changing entry becomes the `key="value"` form
of the first matching entry — and the entries whose keys were not seen
in the file are appended as a trailing block preceded by a blank line
and the timestamped NetPilot marker comment. -/
theorem write_config_frame :
    (∀ (existing : List Line) (E : List SystemConfigEntry) (stamp : Line),
      (writeConfigLines existing E stamp).take existing.length =
        existing.map (rewriteLine E)) ∧
    (∀ (E : List SystemConfigEntry) (l : Line),
      (∀ k, lineKey? l = some k → E.find? (fun e => e.key = k) = none) →
      rewriteLine E l = l) ∧
    (∀ (E : List SystemConfigEntry) (l k : Line) (e : SystemConfigEntry),
      lineKey? l = some k → E.find? (fun e => e.key = k) = some e →
      rewriteLine E l = mkEntryLine k e.value) ∧
    (∀ (existing : List Line) (E : List SystemConfigEntry) (stamp : Line),
      (writeConfigLines existing E stamp).drop existing.length =
        (if (E.filter fun e => !(processedKeys existing E).contains e.key).isEmpty
         then []
         else [[], netpilotMarker stamp] ++
           (E.filter fun e => !(processedKeys existing E).contains e.key).flatMap
             entryBlock)) ∧
    (∀ (existing : List Line) (E : List SystemConfigEntry), ∀ e ∈ E,
      ((processedKeys existing E).contains e.key = true ↔
        ∃ l ∈ existing, lineKey? l = some e.key)) := by
  have hlen : ∀ (existing : List Line) (E : List SystemConfigEntry),
      (existing.map (rewriteLine E)).length = existing.length := by
    intro existing E; exact List.length_map _ _
  refine ⟨?_, ?_, ?_, ?_, ?_⟩
  · intro existing E stamp
    rw [writeConfigLines_eq]
    split
    · rw [← hlen existing E, List.take_length]
    · rw [List.append_assoc, ← hlen existing E, List.take_left]
  · intro E l h
    unfold rewriteLine
    cases hk : lineKey? l with
    | none => rfl
    | some k =>
      dsimp only
      rw [h k hk]
  · intro E l k e hk hf
    unfold rewriteLine
    rw [hk]
    dsimp only
    rw [hf]
  · intro existing E stamp
    rw [writeConfigLines_eq]
    split
    · rw [← hlen existing E, List.drop_length]
    · rw [List.append_assoc, ← hlen existing E, List.drop_left]
  · intro existing E e he
    constructor
    · intro hc
      have hm := List.mem_of_elem_eq_true hc
      obtain ⟨l, hl, heq⟩ := List.mem_filterMap.1 hm
      refine ⟨l, hl, ?_⟩
      cases hk : lineKey? l with
      | none =>
        rw [hk] at heq
        exact absurd heq (by simp)
      | some k =>
        rw [hk] at heq
        dsimp only at heq
        by_cases hf : (E.find? (fun e => e.key = k)).isSome = true
        · rw [if_pos hf] at heq
          injection heq with heq'
          rw [heq']
        · rw [if_neg hf] at heq
          exact absurd heq (by simp)
    · rintro ⟨l, hl, hk⟩
      apply List.elem_eq_true_of_mem
      refine List.mem_filterMap.2 ⟨l, hl, ?_⟩
      rw [hk]
      dsimp only
      have hf : (E.find? (fun x => x.key = e.key)).isSome = true := by
        rw [List.find?_isSome]
        exact ⟨e, he, by simp⟩
      rw [if_pos hf]

/-- Witness for C8 at Scenario B's shape: the line `if_igb_load="NO"` is
replaced in place by `if_igb_load="YES"`, and a comment line passes
through unchanged. -/
theorem write_config_frame_witness :
    rewriteLine [c1Entry] (sl "if_igb_load=\"NO\"") =
      mkEntryLine (sl "if_igb_load") (sl "YES") ∧
    rewriteLine [c1Entry] (sl "# NetPilot keeps comments") =
      sl "# NetPilot keeps comments" := by
  constructor
  · exact write_config_frame.2.2.1 [c1Entry] (sl "if_igb_load=\"NO\"")
      (sl "if_igb_load") c1Entry (by decide) (by decide)
  · exact write_config_frame.2.1 [c1Entry] (sl "# NetPilot keeps comments")
      (by
        intro k hk
        rw [show lineKey? (sl "# NetPilot keeps comments") = none from by decide]
          at hk
        exact Option.noConfusion hk)

theorem cleanKey_spec {k : Line} (h : cleanKey k = true) :
    k ≠ [] ∧
    (∀ c, k.head? = some c → isSpaceChar c = false ∧ c ≠ '#') ∧
    (∀ c, k.getLast? = some c → isSpaceChar c = false) ∧
    '=' ∉ k := by
  unfold cleanKey at h
  simp only [Bool.and_eq_true] at h
  obtain ⟨⟨⟨⟨h1, h2⟩, h3⟩, h4⟩, -⟩ := h
  refine ⟨by simpa using h1, ?_, ?_, by simpa using h4⟩
  · intro c hc
    rw [hc] at h2
    simpa using h2
  · intro c hc
    rw [hc] at h3
    simpa using h3

theorem cleanValue_spec {v : Line} (h : cleanValue v = true) :
    (∀ c, v.head? = some c → c ≠ '"') ∧
    (∀ c, v.getLast? = some c → c ≠ '"') := by
  unfold cleanValue at h
  simp only [Bool.and_eq_true] at h
  obtain ⟨⟨h1, h2⟩, -⟩ := h
  constructor
  · intro c hc
    rw [hc] at h1
    simpa using h1
  · intro c hc
    rw [hc] at h2
    simpa using h2

theorem dropWhile_eq_self_of_head {p : Char → Bool} {l : List Char}
    (h : ∀ c, l.head? = some c → p c = false) : l.dropWhile p = l := by
  cases l with
  | nil => rfl
  | cons a t =>
    rw [List.dropWhile_cons, h a rfl]
    simp

theorem stripChars_eq_self {p : Char → Bool} {l : List Char}
    (h1 : ∀ c, l.head? = some c → p c = false)
    (h2 : ∀ c, l.getLast? = some c → p c = false) : stripChars p l = l := by
  unfold stripChars
  rw [dropWhile_eq_self_of_head h1]
  rw [dropWhile_eq_self_of_head (by
    intro c hc
    rw [List.head?_reverse] at hc
    exact h2 c hc)]
  exact List.reverse_reverse l

theorem splitEq1_append {k r : Line} (hk : '=' ∉ k) :
    splitEq1 (k ++ '=' :: r) = (k, r) := by
  induction k with
  | nil => simp [splitEq1]
  | cons c t ih =>
    rw [List.cons_append]
    unfold splitEq1
    rw [if_neg (by
      intro hc
      exact hk (by rw [hc]; exact List.mem_cons_self _ _))]
    rw [ih (fun hm => hk (List.mem_cons_of_mem _ hm))]

theorem head?_append_of_ne_nil {l r : List Char} (h : l ≠ []) :
    (l ++ r).head? = l.head? := by
  cases l with
  | nil => exact absurd rfl h
  | cons a t => rfl

theorem getLast?_cons_of_ne_nil {a : Char} {t : List Char} (h : t ≠ []) :
    (a :: t).getLast? = t.getLast? := by
  cases t with
  | nil => exact absurd rfl h
  | cons b t' => exact List.getLast?_cons_cons

theorem dropWhile_append_singleton {p : Char → Bool} {c : Char}
    (hc : p c = false) (l : List Char) :
    ∃ q, (l ++ [c]).dropWhile p = q ++ [c] := by
  induction l with
  | nil =>
    refine ⟨[], ?_⟩
    simp [List.dropWhile_cons, hc]
  | cons a t ih =>
    rw [List.cons_append, List.dropWhile_cons]
    by_cases hp : p a = true
    · rw [if_pos hp]
      exact ih
    · rw [if_neg hp]
      exact ⟨a :: t, by rw [List.cons_append]⟩

/-- Stripping preserves a non-strippable head character. -/
theorem stripChars_head {p : Char → Bool} {c : Char} (hc : p c = false)
    (t : List Char) : ∃ q, stripChars p (c :: t) = c :: q := by
  unfold stripChars
  rw [show (c :: t).dropWhile p = c :: t from dropWhile_eq_self_of_head (by
    intro x hx
    injection hx with hx'
    rw [← hx']
    exact hc)]
  rw [List.reverse_cons]
  obtain ⟨q, hq⟩ := dropWhile_append_singleton hc t.reverse
  rw [hq]
  exact ⟨q.reverse, by simp⟩

/-- A line whose first character is `#` never parses (comment line). -/
theorem parsedKV_hash (t : Line) : parsedKV ('#' :: t) = none := by
  obtain ⟨q, hq⟩ := stripChars_head (show isSpaceChar '#' = false by decide) t
  unfold parsedKV pyStrip
  rw [hq]
  simp

/-- The blank line never parses. -/
theorem parsedKV_nil : parsedKV [] = none := rfl

theorem stripQuotes_wrap {v : Line}
    (h1 : ∀ c, v.head? = some c → c ≠ '"')
    (h2 : ∀ c, v.getLast? = some c → c ≠ '"') :
    stripQuotes ('"' :: v ++ ['"']) = v := by
  unfold stripQuotes stripChars
  cases v with
  | nil => rfl
  | cons a t =>
    have ha : a ≠ '"' := h1 a rfl
    rw [show ('"' :: (a :: t) ++ ['"'] : List Char).dropWhile
          (fun c => c = '"') = (a :: t) ++ ['"'] from by
      rw [List.cons_append, List.dropWhile_cons, if_pos (by decide),
        List.cons_append, List.dropWhile_cons, if_neg (by simpa using ha)]]
    rw [show ((a :: t) ++ ['"'] : List Char).reverse =
          '"' :: (a :: t).reverse from by simp]
    rw [List.dropWhile_cons, if_pos (by decide)]
    rw [show (a :: t).reverse.dropWhile (fun c => c = '"') = (a :: t).reverse
        from dropWhile_eq_self_of_head (by
      intro c hc
      rw [List.head?_reverse] at hc
      exact decide_eq_false (h2 c hc))]
    exact List.reverse_reverse _

/-- The print/parse roundtrip: a `key="value"` line written by
`write_config_file` parses back to exactly that key and value. -/
theorem parsedKV_mkEntryLine {k v : Line} (hk : cleanKey k = true)
    (hv : cleanValue v = true) :
    parsedKV (mkEntryLine k v) = some (k, v) := by
  obtain ⟨hne, hhead, hlast, hkeq⟩ := cleanKey_spec hk
  obtain ⟨hvh, hvl⟩ := cleanValue_spec hv
  obtain ⟨c0, k', hk0⟩ : ∃ c0 k', k = c0 :: k' := by
    cases k with
    | nil => exact absurd rfl hne
    | cons a t => exact ⟨a, t, rfl⟩
  subst hk0
  have hc0 := hhead c0 rfl
  have hline : mkEntryLine (c0 :: k') v =
      c0 :: (k' ++ '=' :: '"' :: v ++ ['"']) := rfl
  have hlast' : (mkEntryLine (c0 :: k') v).getLast? = some '"' := by
    rw [show mkEntryLine (c0 :: k') v =
      ((c0 :: k') ++ '=' :: '"' :: v) ++ ['"'] from by simp [mkEntryLine]]
    exact List.getLast?_concat _
  have hstrip : pyStrip (mkEntryLine (c0 :: k') v) =
      mkEntryLine (c0 :: k') v := by
    unfold pyStrip
    apply stripChars_eq_self
    · intro c hc
      rw [hline] at hc
      injection hc with hc'
      rw [← hc']
      exact hc0.1
    · intro c hc
      rw [hlast'] at hc
      injection hc with hc'
      rw [← hc']
      decide
  unfold parsedKV
  rw [hstrip]
  have he : (mkEntryLine (c0 :: k') v).isEmpty = false := by rw [hline]; rfl
  have hh : (mkEntryLine (c0 :: k') v).head? = some c0 := by rw [hline]; rfl
  have hm : (mkEntryLine (c0 :: k') v).contains '=' = true := by
    apply List.elem_eq_true_of_mem
    rw [hline]
    exact List.mem_cons_of_mem _ (List.mem_append_left _
      (List.mem_append_right _ (List.mem_cons_self _ _)))
  rw [he, hh, hm]
  rw [if_pos (by simp [hc0.2])]
  rw [show mkEntryLine (c0 :: k') v =
    (c0 :: k') ++ '=' :: ('"' :: v ++ ['"']) from by simp [mkEntryLine]]
  rw [splitEq1_append hkeq]
  have hpk : pyStrip (c0 :: k') = c0 :: k' := by
    unfold pyStrip
    exact stripChars_eq_self (fun c hc => (hhead c hc).1) hlast
  have hpv : pyStrip ('"' :: v ++ ['"']) = '"' :: v ++ ['"'] := by
    unfold pyStrip
    apply stripChars_eq_self
    · intro c hc
      rw [show ('"' :: v ++ ['"'] : Line).head? = some '"' from rfl] at hc
      injection hc with hc'
      rw [← hc']
      decide
    · intro c hc
      rw [show ('"' :: v ++ ['"'] : Line) = ('"' :: v) ++ ['"'] from by simp,
        List.getLast?_concat] at hc
      injection hc with hc'
      rw [← hc']
      decide
  dsimp only
  rw [hpk, hpv, stripQuotes_wrap hvh hvl]

theorem proj_append (κ : Line) (l₁ l₂ : List Line) :
    proj κ (l₁ ++ l₂) = proj κ l₁ ++ proj κ l₂ :=
  List.filterMap_append l₁ l₂ (projLine κ)

theorem projLine_hash (κ : Line) (t : Line) : projLine κ ('#' :: t) = none := by
  unfold projLine
  rw [parsedKV_hash]

/-- The parsed mapping binds `κ` to the last value a line assigns it. -/
theorem foldl_applyLine (lines : List Line) (cfg : Config) (κ : Line) :
    lines.foldl applyLine cfg κ = ((proj κ lines).getLast?).elim (cfg κ) some := by
  induction lines generalizing cfg with
  | nil => simp [proj]
  | cons l ls ih =>
    rw [List.foldl_cons]
    have hproj : proj κ (l :: ls) = (projLine κ l).toList ++ proj κ ls := by
      unfold proj
      rw [List.filterMap_cons]
      cases h : projLine κ l <;> simp
    rw [ih (applyLine cfg l), hproj]
    cases h : projLine κ l with
    | none =>
      have happ : applyLine cfg l κ = cfg κ := by
        unfold applyLine
        cases hp : parsedKV l with
        | none => rfl
        | some kv =>
          unfold projLine at h
          rw [hp] at h
          dsimp only at h
          by_cases hk : kv.1 = κ
          · rw [if_pos hk] at h
            exact absurd h (by simp)
          · dsimp only [cfgSet]
            rw [if_neg (fun hh => hk hh.symm)]
      rw [happ]
      simp
    | some v =>
      obtain ⟨kv, hp, hk1, hk2⟩ : ∃ kv, parsedKV l = some kv ∧
          kv.1 = κ ∧ kv.2 = v := by
        unfold projLine at h
        cases hp : parsedKV l with
        | none =>
          rw [hp] at h
          exact absurd h (by simp)
        | some kv =>
          rw [hp] at h
          dsimp only at h
          by_cases hk : kv.1 = κ
          · rw [if_pos hk] at h
            injection h with h'
            exact ⟨kv, rfl, hk, h'⟩
          · rw [if_neg hk] at h
            exact absurd h (by simp)
      have happ : applyLine cfg l κ = some v := by
        unfold applyLine
        rw [hp]
        dsimp only [cfgSet]
        rw [if_pos hk1.symm, hk2]
      rw [happ]
      dsimp only [Option.toList]
      cases hpl : proj κ ls with
      | nil => simp
      | cons b t =>
        rw [List.cons_append, List.nil_append, List.getLast?_cons_cons]
        cases hgl : (b :: t).getLast? with
        | none => exact absurd (List.getLast?_eq_none_iff.1 hgl) (by simp)
        | some x => simp

theorem read_config_lines_eq_proj (lines : List Line) (κ : Line) :
    read_config_lines lines κ = (proj κ lines).getLast? := by
  unfold read_config_lines
  rw [foldl_applyLine]
  cases h : (proj κ lines).getLast? <;> simp [emptyConfig]

theorem getLast?_of_all_eq {l : List Line} {v : Line} (hne : l ≠ [])
    (hall : ∀ x ∈ l, x = v) : l.getLast? = some v := by
  cases h : l.getLast? with
  | none => exact absurd (List.getLast?_eq_none_iff.1 h) hne
  | some x =>
    have hx : x ∈ l := List.mem_of_mem_getLast? (by rw [h]; rfl)
    rw [hall x hx]

theorem find?_key_self {E : List SystemConfigEntry} {e : SystemConfigEntry}
    (hnd : (E.map (fun x => x.key)).Nodup) (he : e ∈ E) :
    E.find? (fun x => x.key = e.key) = some e := by
  induction E with
  | nil => exact absurd he (List.not_mem_nil e)
  | cons a t ih =>
    rw [List.map_cons] at hnd
    have hnd' := List.nodup_cons.1 hnd
    by_cases hp : a.key = e.key
    · rcases List.mem_cons.1 he with rfl | hmem
      · exact List.find?_cons_of_pos _ (by simp)
      · exact absurd (by rw [hp]; exact List.mem_map_of_mem _ hmem) hnd'.1
    · rw [List.find?_cons_of_neg _ (by simpa using hp)]
      rcases List.mem_cons.1 he with rfl | hmem
      · exact absurd rfl hp
      · exact ih hnd'.2 hmem

theorem projLine_mkEntryLine_self {k v : Line} (κ : Line)
    (hk : cleanKey k = true) (hv : cleanValue v = true) :
    projLine κ (mkEntryLine k v) = if k = κ then some v else none := by
  unfold projLine
  rw [parsedKV_mkEntryLine hk hv]

theorem lineKey?_parsedKV {l κ : Line} (h : lineKey? l = some κ) :
    ∃ w, parsedKV l = some (κ, w) := by
  unfold lineKey? at h
  cases hp : parsedKV l with
  | none =>
    rw [hp] at h
    exact absurd h (by simp)
  | some kv =>
    rw [hp] at h
    injection h with h'
    exact ⟨kv.2, by rw [← h']⟩

theorem projLine_rewriteLine_of_ne (newE : List SystemConfigEntry)
    (hclean : ∀ x ∈ newE, cleanKey x.key = true ∧ cleanValue x.value = true)
    {κ : Line} (hκ : ∀ d ∈ newE, d.key ≠ κ) (l : Line) :
    projLine κ (rewriteLine newE l) = projLine κ l := by
  unfold rewriteLine
  cases hk : lineKey? l with
  | none => rfl
  | some k' =>
    dsimp only
    cases hf : newE.find? (fun x => x.key = k') with
    | none => rfl
    | some d =>
      have hd : d ∈ newE := List.mem_of_find?_eq_some hf
      have hdk : d.key = k' := by simpa using List.find?_some hf
      have hck : cleanKey k' = true := by
        rw [← hdk]
        exact (hclean d hd).1
      rw [projLine_mkEntryLine_self κ hck (hclean d hd).2]
      rw [if_neg (fun hh => hκ d hd (by rw [hdk, hh]))]
      obtain ⟨w, hw⟩ := lineKey?_parsedKV hk
      unfold projLine
      rw [hw]
      dsimp only
      rw [if_neg (fun hh => hκ d hd (by rw [hdk, hh]))]

theorem projLine_rewriteLine_of_key (newE : List SystemConfigEntry)
    (hclean : ∀ x ∈ newE, cleanKey x.key = true ∧ cleanValue x.value = true)
    (hnd : (newE.map (fun x => x.key)).Nodup) {e : SystemConfigEntry}
    (he : e ∈ newE) (l : Line) :
    projLine e.key (rewriteLine newE l) =
      if lineKey? l = some e.key then some e.value else none := by
  unfold rewriteLine
  cases hk : lineKey? l with
  | none =>
    rw [if_neg (by simp)]
    unfold projLine
    unfold lineKey? at hk
    cases hp : parsedKV l with
    | none => rfl
    | some kv =>
      rw [hp] at hk
      exact absurd hk (by simp)
  | some k' =>
    dsimp only
    by_cases hkk : k' = e.key
    · subst hkk
      rw [find?_key_self hnd he]
      rw [projLine_mkEntryLine_self _ (hclean e he).1 (hclean e he).2]
      rw [if_pos rfl, if_pos rfl]
    · rw [if_neg (fun hh => hkk (Option.some.inj hh))]
      cases hf : newE.find? (fun x => x.key = k') with
      | none =>
        obtain ⟨w, hw⟩ := lineKey?_parsedKV hk
        unfold projLine
        rw [hw]
        dsimp only
        rw [if_neg hkk]
      | some d =>
        have hd : d ∈ newE := List.mem_of_find?_eq_some hf
        have hdk : d.key = k' := by simpa using List.find?_some hf
        have hck : cleanKey k' = true := by
          rw [← hdk]
          exact (hclean d hd).1
        rw [projLine_mkEntryLine_self _ hck (hclean d hd).2]
        rw [if_neg hkk]

theorem proj_map_rewrite_of_ne (L : List Line) (newE : List SystemConfigEntry)
    (hclean : ∀ x ∈ newE, cleanKey x.key = true ∧ cleanValue x.value = true)
    {κ : Line} (hκ : ∀ d ∈ newE, d.key ≠ κ) :
    proj κ (L.map (rewriteLine newE)) = proj κ L := by
  unfold proj
  rw [List.filterMap_map]
  exact List.filterMap_congr
    (fun l _ => projLine_rewriteLine_of_ne newE hclean hκ l)

theorem proj_map_rewrite_of_key (L : List Line) (newE : List SystemConfigEntry)
    (hclean : ∀ x ∈ newE, cleanKey x.key = true ∧ cleanValue x.value = true)
    (hnd : (newE.map (fun x => x.key)).Nodup) {e : SystemConfigEntry}
    (he : e ∈ newE) :
    proj e.key (L.map (rewriteLine newE)) =
      L.filterMap (fun l => if lineKey? l = some e.key
        then some e.value else none) := by
  unfold proj
  rw [List.filterMap_map]
  exact List.filterMap_congr
    (fun l _ => projLine_rewriteLine_of_key newE hclean hnd he l)

theorem filterMap_ite_all_eq {L : List Line} {κ v : Line} :
    ∀ x ∈ L.filterMap (fun l => if lineKey? l = some κ
      then some v else none), x = v := by
  intro x hx
  obtain ⟨l, -, hl⟩ := List.mem_filterMap.1 hx
  by_cases h : lineKey? l = some κ
  · rw [if_pos h] at hl
    injection hl with hl'
    exact hl'.symm
  · rw [if_neg h] at hl
    exact absurd hl (by simp)

theorem filterMap_ite_ne_nil {L : List Line} {κ v l : Line} (hl : l ∈ L)
    (hk : lineKey? l = some κ) :
    L.filterMap (fun l => if lineKey? l = some κ
      then some v else none) ≠ [] := by
  intro hnil
  have : v ∈ L.filterMap (fun l => if lineKey? l = some κ
      then some v else none) :=
    List.mem_filterMap.2 ⟨l, hl, by rw [if_pos hk]⟩
  rw [hnil] at this
  exact List.not_mem_nil v this

theorem proj_netpilot_sep (κ stamp : Line) :
    proj κ [[], netpilotMarker stamp] = [] := by
  unfold proj
  rw [List.filterMap_cons]
  rw [show projLine κ ([] : Line) = none from rfl]
  rw [List.filterMap_cons]
  rw [show netpilotMarker stamp =
    '#' :: (sl " NetPilot Configuration - " ++ stamp) from rfl]
  rw [projLine_hash]
  rfl

theorem proj_entryBlock (u : SystemConfigEntry)
    (hu : cleanKey u.key = true ∧ cleanValue u.value = true) (κ : Line) :
    proj κ (entryBlock u) = if u.key = κ then [u.value] else [] := by
  unfold entryBlock proj
  have hkv : List.filterMap (projLine κ) [mkEntryLine u.key u.value] =
      if u.key = κ then [u.value] else [] := by
    rw [List.filterMap_cons]
    rw [projLine_mkEntryLine_self κ hu.1 hu.2]
    by_cases h : u.key = κ
    · rw [if_pos h, if_pos h]
      rfl
    · rw [if_neg h, if_neg h]
      rfl
  cases hc : u.comment with
  | none => exact hkv
  | some c =>
    dsimp only
    by_cases hce : c.isEmpty
    · rw [if_pos hce, List.nil_append]
      exact hkv
    · rw [if_neg hce, List.cons_append, List.nil_append, List.filterMap_cons]
      rw [show (sl "# " ++ c : Line) = '#' :: (' ' :: c) from rfl]
      rw [projLine_hash]
      exact hkv

theorem proj_flatMap_entryBlock (κ : Line) (U : List SystemConfigEntry)
    (hclean : ∀ u ∈ U, cleanKey u.key = true ∧ cleanValue u.value = true) :
    proj κ (U.flatMap entryBlock) =
      U.flatMap (fun u => if u.key = κ then [u.value] else []) := by
  induction U with
  | nil => rfl
  | cons u t ih =>
    rw [List.flatMap_cons, List.flatMap_cons, proj_append]
    rw [proj_entryBlock u (hclean u (List.mem_cons_self _ _)) κ]
    rw [ih (fun x hx => hclean x (List.mem_cons_of_mem _ hx))]

theorem flatMap_ite_of_ne {U : List SystemConfigEntry} {κ : Line}
    (hκ : ∀ u ∈ U, u.key ≠ κ) :
    U.flatMap (fun u => if u.key = κ then [u.value] else []) = [] := by
  induction U with
  | nil => rfl
  | cons u t ih =>
    rw [List.flatMap_cons, if_neg (hκ u (List.mem_cons_self _ _))]
    rw [List.nil_append]
    exact ih (fun x hx => hκ x (List.mem_cons_of_mem _ hx))

theorem flatMap_ite_all_eq {U : List SystemConfigEntry} {κ v : Line}
    (hinj : ∀ u ∈ U, u.key = κ → u.value = v) :
    ∀ x ∈ U.flatMap (fun u => if u.key = κ then [u.value] else []),
      x = v := by
  intro x hx
  obtain ⟨u, hu, hxu⟩ := List.mem_flatMap.1 hx
  by_cases h : u.key = κ
  · rw [if_pos h] at hxu
    rw [List.mem_singleton] at hxu
    rw [hxu]
    exact hinj u hu h
  · rw [if_neg h] at hxu
    exact absurd hxu (List.not_mem_nil x)

/-- `write_config_file` marks a key of a new entry as processed exactly
when some existing line parses to that key. -/
theorem processedKeys_contains_iff (existing : List Line)
    (E : List SystemConfigEntry) {e : SystemConfigEntry} (he : e ∈ E) :
    ((processedKeys existing E).contains e.key = true ↔
      ∃ l ∈ existing, lineKey? l = some e.key) := by
  constructor
  · intro hc
    have hm := List.mem_of_elem_eq_true hc
    obtain ⟨l, hl, heq⟩ := List.mem_filterMap.1 hm
    refine ⟨l, hl, ?_⟩
    cases hk : lineKey? l with
    | none =>
      rw [hk] at heq
      exact absurd heq (by simp)
    | some k =>
      rw [hk] at heq
      dsimp only at heq
      by_cases hf : (E.find? (fun e => e.key = k)).isSome = true
      · rw [if_pos hf] at heq
        injection heq with heq'
        rw [heq']
      · rw [if_neg hf] at heq
        exact absurd heq (by simp)
  · rintro ⟨l, hl, hk⟩
    apply List.elem_eq_true_of_mem
    refine List.mem_filterMap.2 ⟨l, hl, ?_⟩
    rw [hk]
    dsimp only
    have hf : (E.find? (fun x => x.key = e.key)).isSome = true := by
      rw [List.find?_isSome]
      exact ⟨e, he, by simp⟩
    rw [if_pos hf]

/-- After a rewrite, every key of a rewritten entry reads back as that
entry's value. -/
theorem read_config_after_write (L : List Line)
    (newE : List SystemConfigEntry) (stamp : Line)
    (hclean : ∀ x ∈ newE, cleanKey x.key = true ∧ cleanValue x.value = true)
    (hnd : (newE.map (fun x => x.key)).Nodup) {e : SystemConfigEntry}
    (he : e ∈ newE) :
    read_config_lines (writeConfigLines L newE stamp) e.key = some e.value := by
  rw [read_config_lines_eq_proj, writeConfigLines_eq]
  have hUclean : ∀ u ∈ newE.filter
      (fun x => !(processedKeys L newE).contains x.key),
      cleanKey u.key = true ∧ cleanValue u.value = true :=
    fun u hu => hclean u (List.mem_filter.1 hu).1
  have hUinj : ∀ u ∈ newE.filter
      (fun x => !(processedKeys L newE).contains x.key),
      u.key = e.key → u.value = e.value := by
    intro u hu hk
    have : u = e :=
      List.inj_on_of_nodup_map hnd (List.mem_filter.1 hu).1 he hk
    rw [this]
  split
  case isTrue hUe =>
    have hcont : (processedKeys L newE).contains e.key = true := by
      by_contra hc
      have hmem : e ∈ newE.filter
          (fun x => !(processedKeys L newE).contains x.key) :=
        List.mem_filter.2 ⟨he, by
          rw [Bool.not_eq_true] at hc
          rw [hc]
          rfl⟩
      rw [List.isEmpty_iff.1 hUe] at hmem
      exact List.not_mem_nil e hmem
    obtain ⟨l, hl, hlk⟩ := (processedKeys_contains_iff L newE he).1 hcont
    rw [proj_map_rewrite_of_key L newE hclean hnd he]
    exact getLast?_of_all_eq (filterMap_ite_ne_nil hl hlk) filterMap_ite_all_eq
  case isFalse hUe =>
    rw [proj_append, proj_append, proj_netpilot_sep]
    rw [proj_map_rewrite_of_key L newE hclean hnd he]
    rw [proj_flatMap_entryBlock e.key _ hUclean]
    apply getLast?_of_all_eq
    · by_cases hcont : (processedKeys L newE).contains e.key = true
      · obtain ⟨l, hl, hlk⟩ := (processedKeys_contains_iff L newE he).1 hcont
        intro hnil
        rcases List.append_eq_nil.1 hnil with ⟨hnil', -⟩
        rcases List.append_eq_nil.1 hnil' with ⟨hF, -⟩
        exact filterMap_ite_ne_nil hl hlk hF
      · have hmem : e ∈ newE.filter
            (fun x => !(processedKeys L newE).contains x.key) :=
          List.mem_filter.2 ⟨he, by
            rw [Bool.not_eq_true] at hcont
            rw [hcont]
            rfl⟩
        intro hnil
        rcases List.append_eq_nil.1 hnil with ⟨-, hB⟩
        have : e.value ∈ (newE.filter
            (fun x => !(processedKeys L newE).contains x.key)).flatMap
              (fun u => if u.key = e.key then [u.value] else []) :=
          List.mem_flatMap.2 ⟨e, hmem, by
            rw [if_pos rfl]
            exact List.mem_singleton.2 rfl⟩
        rw [hB] at this
        exact List.not_mem_nil _ this
    · intro x hx
      rcases List.mem_append.1 hx with hx' | hx'
      · rcases List.mem_append.1 hx' with hx'' | hx''
        · exact filterMap_ite_all_eq x hx''
        · exact absurd hx'' (List.not_mem_nil x)
      · exact flatMap_ite_all_eq hUinj x hx'

/-- A rewrite leaves the parsed value of every untouched key unchanged. -/
theorem read_config_preserved (L : List Line)
    (newE : List SystemConfigEntry) (stamp : Line)
    (hclean : ∀ x ∈ newE, cleanKey x.key = true ∧ cleanValue x.value = true)
    {κ : Line} (hκ : ∀ d ∈ newE, d.key ≠ κ) :
    read_config_lines (writeConfigLines L newE stamp) κ =
      read_config_lines L κ := by
  rw [read_config_lines_eq_proj, read_config_lines_eq_proj,
    writeConfigLines_eq]
  have hUclean : ∀ u ∈ newE.filter
      (fun x => !(processedKeys L newE).contains x.key),
      cleanKey u.key = true ∧ cleanValue u.value = true :=
    fun u hu => hclean u (List.mem_filter.1 hu).1
  split
  · rw [proj_map_rewrite_of_ne L newE hclean hκ]
  · rw [proj_append, proj_append, proj_netpilot_sep]
    rw [proj_map_rewrite_of_ne L newE hclean hκ]
    rw [proj_flatMap_entryBlock κ _ hUclean]
    rw [flatMap_ite_of_ne
      (fun u hu => hκ u (List.mem_filter.1 hu).1)]
    simp

theorem changedEntries_subset {cfg : Config} {E : List SystemConfigEntry} :
    ∀ e ∈ changedEntries cfg E, e ∈ E :=
  fun _ he => (List.mem_filter.1 he).1

theorem changedEntries_value {cfg : Config} {E : List SystemConfigEntry}
    {e : SystemConfigEntry} (he : e ∈ E) (hn : e ∉ changedEntries cfg E) :
    cfg e.key = some e.value := by
  by_cases h : cfg e.key = some e.value
  · exact h
  · exfalso
    apply hn
    apply List.mem_filter.2
    refine ⟨he, ?_⟩
    rw [beq_eq_false_iff_ne.2 h]
    rfl

theorem changedEntries_nodup {cfg : Config} {E : List SystemConfigEntry}
    (hnd : (E.map (fun x => x.key)).Nodup) :
    ((changedEntries cfg E).map (fun x => x.key)).Nodup :=
  List.Nodup.sublist (List.Sublist.map _ (List.filter_sublist E)) hnd

theorem add_conf_entries_no_change (w : SyncWorld) (p : Line)
    (c : Option (List Line)) (j : List ConfigurationChange)
    (E : List SystemConfigEntry)
    (hch : changedEntries (read_config_file c) E = []) :
    (add_conf_entries w p c j E).ok = true ∧
    (add_conf_entries w p c j E).file = c ∧
    (add_conf_entries w p c j E).journal = j ∧
    SyncEvent.writeAttempt ∉ (add_conf_entries w p c j E).events := by
  by_cases hE : E = []
  · subst hE
    exact ⟨rfl, rfl, rfl, List.not_mem_nil _⟩
  · unfold add_conf_entries
    rw [if_neg (by simpa using hE)]
    dsimp only
    rw [hch]
    rw [if_pos (show ([] : List SystemConfigEntry).isEmpty = true from rfl)]
    refine ⟨rfl, rfl, by simp, ?_⟩
    intro hmem
    rcases List.mem_append.1 hmem with h | h
    · have hbk : SyncEvent.writeAttempt ∉ (backup_file w c).2 := by
        cases c <;> cases hb : w.backupOk <;> simp [backup_file, hb]
      exact hbk h
    · simp at h

theorem add_conf_entries_success_file (w : SyncWorld) (p : Line)
    (c : Option (List Line)) (j : List ConfigurationChange)
    (E : List SystemConfigEntry) (hw : w.writeOk = true)
    (hch : changedEntries (read_config_file c) E ≠ []) :
    (add_conf_entries w p c j E).file =
      some (writeConfigLines (c.getD [])
        (changedEntries (read_config_file c) E) w.stamp) := by
  unfold add_conf_entries
  rw [if_neg (by simpa using changedEntries_ne_nil_of hch)]
  dsimp only
  rw [if_neg (by simpa using hch)]
  unfold write_config_file
  rw [hw]
  rfl

/-- C2 (amended): for well-formed desired entries — pairwise distinct
keys; keys nonempty, not starting with `#` or whitespace, not ending
with whitespace, containing no `=` or newline; values with no double
quote at either end and no newline — synchronization is idempotent: a
second `add_rc_conf_entries` call with the same entries, after a
successful first call, succeeds with no write attempt, no file change
and no new `ConfigurationChange`.  (The counterexample shows the
restriction to well-formed values is necessary: a value consisting of a
double quote breaks the quote-stripping roundtrip and makes the second
call rewrite the file again.) -/
theorem add_rc_conf_entries_idempotent (w₁ w₂ : SyncWorld)
    (c : Option (List Line)) (j : List ConfigurationChange)
    (E : List SystemConfigEntry)
    (hclean : ∀ e ∈ E, cleanKey e.key = true ∧ cleanValue e.value = true)
    (hnd : (E.map (fun e => e.key)).Nodup)
    (hw : w₁.writeOk = true) :
    (add_rc_conf_entries w₂ (add_rc_conf_entries w₁ c j E).file
        (add_rc_conf_entries w₁ c j E).journal E).ok = true ∧
    (add_rc_conf_entries w₂ (add_rc_conf_entries w₁ c j E).file
        (add_rc_conf_entries w₁ c j E).journal E).file =
      (add_rc_conf_entries w₁ c j E).file ∧
    (add_rc_conf_entries w₂ (add_rc_conf_entries w₁ c j E).file
        (add_rc_conf_entries w₁ c j E).journal E).journal =
      (add_rc_conf_entries w₁ c j E).journal ∧
    SyncEvent.writeAttempt ∉
      (add_rc_conf_entries w₂ (add_rc_conf_entries w₁ c j E).file
        (add_rc_conf_entries w₁ c j E).journal E).events := by
  have hread : ∀ e ∈ E,
      read_config_file (add_rc_conf_entries w₁ c j E).file e.key =
        some e.value := by
    intro e he
    by_cases hch : changedEntries (read_config_file c) E = []
    · have hfile := (add_conf_entries_no_change w₁ rcConfPath c j E hch).2.1
      unfold add_rc_conf_entries
      rw [hfile]
      exact changedEntries_value he (by rw [hch]; exact List.not_mem_nil e)
    · have hfile := add_conf_entries_success_file w₁ rcConfPath c j E hw hch
      unfold add_rc_conf_entries
      rw [hfile]
      show read_config_lines (writeConfigLines (c.getD [])
        (changedEntries (read_config_file c) E) w₁.stamp) e.key = some e.value
      by_cases hech : e ∈ changedEntries (read_config_file c) E
      · exact read_config_after_write _ _ _
          (fun x hx => hclean x (changedEntries_subset x hx))
          (changedEntries_nodup hnd) hech
      · have hκ : ∀ d ∈ changedEntries (read_config_file c) E,
            d.key ≠ e.key := by
          intro d hd hdk
          have hde : d = e := List.inj_on_of_nodup_map hnd
            (changedEntries_subset d hd) he hdk
          subst hde
          exact hech hd
        rw [read_config_preserved _ _ _
          (fun x hx => hclean x (changedEntries_subset x hx)) hκ]
        exact changedEntries_value he hech
  have hch2 : changedEntries
      (read_config_file (add_rc_conf_entries w₁ c j E).file) E = [] := by
    unfold changedEntries
    rw [List.filter_eq_nil_iff]
    intro e he
    rw [hread e he]
    simp
  exact add_conf_entries_no_change w₂ rcConfPath _ _ E hch2

/-- Witness for C2 at a concrete run: a fresh file, one clean entry. -/
theorem add_rc_conf_entries_idempotent_witness :
    (add_rc_conf_entries c5World (add_rc_conf_entries c5World none [] [c1Entry]).file
        (add_rc_conf_entries c5World none [] [c1Entry]).journal [c1Entry]).ok = true ∧
    (add_rc_conf_entries c5World (add_rc_conf_entries c5World none [] [c1Entry]).file
        (add_rc_conf_entries c5World none [] [c1Entry]).journal [c1Entry]).file =
      (add_rc_conf_entries c5World none [] [c1Entry]).file ∧
    (add_rc_conf_entries c5World (add_rc_conf_entries c5World none [] [c1Entry]).file
        (add_rc_conf_entries c5World none [] [c1Entry]).journal [c1Entry]).journal =
      (add_rc_conf_entries c5World none [] [c1Entry]).journal ∧
    SyncEvent.writeAttempt ∉
      (add_rc_conf_entries c5World (add_rc_conf_entries c5World none [] [c1Entry]).file
        (add_rc_conf_entries c5World none [] [c1Entry]).journal [c1Entry]).events :=
  add_rc_conf_entries_idempotent c5World c5World none [] [c1Entry]
    (by decide) (by decide) rfl

/-- Counterexample to C2 as stated (over arbitrary entry lists): with a
value consisting of one double quote, the second synchronization call
attempts another write and appends another `ConfigurationChange`. -/
theorem second_run_writes_again :
    SyncEvent.writeAttempt ∈
      (add_rc_conf_entries c5World
        (add_rc_conf_entries c5World none [] [c2BadEntry]).file
        (add_rc_conf_entries c5World none [] [c2BadEntry]).journal
        [c2BadEntry]).events ∧
    (add_rc_conf_entries c5World
        (add_rc_conf_entries c5World none [] [c2BadEntry]).file
        (add_rc_conf_entries c5World none [] [c2BadEntry]).journal
        [c2BadEntry]).journal ≠
      (add_rc_conf_entries c5World none [] [c2BadEntry]).journal := by
  decide

end NetPilot

